import Mathlib

/-!
Verification development for the credit-appraisal utility library
(`services/ui/lib/credit.py`): the PII sanitizer, the synthetic record
generators with derived financial metrics, the schema normalizer, and the
(spec-described) rule evaluator.

Modelling conventions:
* pandas DataFrames are lists of named columns; each column carries the
  values and a flag recording whether pandas infers the `object` dtype
  (string-bearing) for it.
* Python floats are modelled as rationals; the epsilon guard `1e-9`
  becomes the exact rational `1/10^9`.  Division by zero in the rational
  model follows the Lean convention `x / 0 = 0`.
* numpy generators are modelled as deterministic draw streams: a function
  from a seed and a draw index to a raw natural number.  A bounded draw
  `integers(lo, hi)` becomes `lo + draw % (hi - lo)`; distribution shapes
  are irrelevant to the claims, only determinism in the seed and the
  draw-consumption order matter.
* The regular expressions `EMAIL_RE` and `PHONE_RE` are embedded as
  deterministic leftmost, greedy-with-backtracking matchers specialised
  to those two patterns, with character classes restricted to ASCII.
-/

namespace CreditLib

/-- Character strings of Python values are modelled as lists of characters. -/
abbrev Str := List Char

/-- ASCII letter, matching the regex class written with the letter ranges. -/
def isReAlpha (c : Char) : Bool := c.isAlpha

/-- ASCII digit, modelling the regex digit class. -/
def isReDigit (c : Char) : Bool := c.isDigit

/-- Characters allowed in the local part of `EMAIL_RE`. -/
def isLocalChar (c : Char) : Bool :=
  c.isAlpha || c.isDigit || c == '.' || c == '_' || c == '%' || c == '+' || c == '-'

/-- Characters allowed in the domain part of `EMAIL_RE`. -/
def isDomainChar (c : Char) : Bool :=
  c.isAlpha || c.isDigit || c == '.' || c == '-'

/-- Whitespace recognised by Python string strip and the regex space class
(ASCII portion). -/
def isPySpace (c : Char) : Bool :=
  c == ' ' || c == '\t' || c == '\n' || c == '\r' || c == '\x0b' || c == '\x0c'

/-- Characters allowed in the middle run of `PHONE_RE`. -/
def isPhoneMid (c : Char) : Bool :=
  c.isDigit || c == '-' || isPySpace c

/-- Validity of a backtracking split of the maximal domain-character run `dr`
at index `j`: a nonempty domain before the dot, a literal dot at `j`, and at
least two letters after it. -/
def validEmailSplit (dr : Str) (j : Nat) : Bool :=
  decide (1 ≤ j) && decide (dr[j]? = some '.') &&
    decide (2 ≤ ((dr.drop (j+1)).takeWhile isReAlpha).length)

/-- Greedy backtracking of `EMAIL_RE`: the largest valid split index of the
domain run, mirroring how the engine shrinks the greedy domain part. -/
def bestEmailSplit (dr : Str) : Option Nat :=
  ((List.range dr.length).filter (validEmailSplit dr)).getLast?

/-- Attempt to match `EMAIL_RE` at the head of `cs`; on success return the
matched chunk and the remainder of the input. -/
def emailMatch (cs : Str) : Option (Str × Str) :=
  let lp := cs.takeWhile isLocalChar
  match cs.dropWhile isLocalChar with
  | '@' :: r2 =>
      if lp.isEmpty then none else
      let dr := r2.takeWhile isDomainChar
      let r3 := r2.dropWhile isDomainChar
      match bestEmailSplit dr with
      | some j =>
          let tld := (dr.drop (j+1)).takeWhile isReAlpha
          some (lp ++ '@' :: (dr.take j ++ '.' :: tld),
                ((dr.drop (j+1)).dropWhile isReAlpha) ++ r3)
      | none => none
  | _ => none

/-- Validity of a backtracking split of the maximal phone-middle run `mid` at
index `j`: at least six middle characters consumed and a digit at `j` for the
final mandatory digit of `PHONE_RE`. -/
def validPhoneSplit (mid : Str) (j : Nat) : Bool :=
  decide (6 ≤ j) &&
    (match mid[j]? with
     | some c => isReDigit c
     | none => false)

/-- Greedy backtracking of `PHONE_RE`: the largest valid split index. -/
def bestPhoneSplit (mid : Str) : Option Nat :=
  ((List.range mid.length).filter (validPhoneSplit mid)).getLast?

/-- Attempt to match the part of `PHONE_RE` after the optional plus sign. -/
def phoneCore (cs : Str) : Option (Str × Str) :=
  match cs with
  | c :: rest =>
      if isReDigit c then
        let mid := rest.takeWhile isPhoneMid
        let r2 := rest.dropWhile isPhoneMid
        match bestPhoneSplit mid with
        | some j => some (c :: mid.take (j+1), mid.drop (j+1) ++ r2)
        | none => none
      else none
  | [] => none

/-- Attempt to match `PHONE_RE` at the head of `cs`. -/
def phoneMatch (cs : Str) : Option (Str × Str) :=
  match cs with
  | '+' :: rest => (phoneCore rest).map (fun pr => ('+' :: pr.1, pr.2))
  | _ => phoneCore cs

/-- One pass of `re.sub(pattern, "", s)`: scan left to right, delete each
leftmost match and continue after it.  Fuelled by the input length. -/
def scanSub (m : Str → Option (Str × Str)) : Nat → Str → Str
  | 0, cs => cs
  | _ + 1, [] => []
  | fuel + 1, c :: cs =>
      match m (c :: cs) with
      | some pr => scanSub m fuel pr.2
      | none => c :: scanSub m fuel cs

/-- Substitution of every `EMAIL_RE` match by the empty string. -/
def emailSub (cs : Str) : Str := scanSub emailMatch cs.length cs

/-- Substitution of every `PHONE_RE` match by the empty string. -/
def phoneSub (cs : Str) : Str := scanSub phoneMatch cs.length cs

/-- Python `str.strip()`: remove leading and trailing whitespace. -/
def pyStrip (cs : Str) : Str :=
  ((cs.dropWhile isPySpace).reverse.dropWhile isPySpace).reverse

/-- A pandas cell value: a string, a number (Python floats and ints are both
modelled as rationals), or a boolean. -/
inductive Val where
  | str : Str → Val
  | num : ℚ → Val
  | bool : Bool → Val
deriving DecidableEq

/-- The function `scrub_text_pii`: strings get the email substitution, then
the phone substitution, then a strip; every other value is unchanged. -/
def scrubTextPii (v : Val) : Val :=
  match v with
  | .str s => .str (pyStrip (phoneSub (emailSub s)))
  | v => v

/-- A pandas column: a name, the inferred object-dtype flag, and the cells. -/
structure Column where
  name : String
  obj : Bool
  vals : List Val
deriving DecidableEq

/-- A pandas DataFrame, modelled as its list of columns in order. -/
abbrev DataFrame := List Column

/-- Substring test on character lists, modelling the Python `in` operator. -/
def subIn (pat : Str) : Str → Bool
  | [] => decide (pat = [])
  | c :: rest => decide ((c :: rest).take pat.length = pat) || subIn pat rest

/-- Python `str.lower()` on a column name (ASCII). -/
def lowerName (s : String) : Str := s.toList.map Char.toLower

/-- The module constant `PII_COLS`. -/
def piiCols : List String :=
  ["customer_name", "name", "email", "phone", "address", "ssn", "national_id", "dob"]

/-- The module constant `BANNED_NAMES`. -/
def bannedNames : List Str :=
  ["race", "gender", "religion", "ethnicity", "ssn", "national_id"].map String.toList

/-- The keep condition of `drop_pii_columns`: no `PII_COLS` member occurs in
the lowercased column name. -/
def keepPii (c : String) : Bool :=
  piiCols.all (fun k => !(subIn k.toList (lowerName c)))

/-- The function `dedupe_columns`: keep only the last occurrence of each
column name, preserving order of the kept columns. -/
def dedupeColumns : DataFrame → DataFrame
  | [] => []
  | c :: rest =>
      if rest.any (fun d => decide (d.name = c.name)) then dedupeColumns rest
      else c :: dedupeColumns rest

/-- The function `drop_pii_columns`: drop columns whose lowercased name
contains a `PII_COLS` member, scrub object-dtype columns cell by cell, then
deduplicate; also report the dropped column names. -/
def dropPiiColumns (df : DataFrame) : DataFrame × List String :=
  let originalCols := df.map (·.name)
  let keepCols := originalCols.filter keepPii
  let dropped := originalCols.filter (fun c => !(keepCols.contains c))
  let result := df.filter (fun col => keepPii col.name)
  let scrubbed := result.map (fun col =>
    if col.obj then { col with vals := col.vals.map scrubTextPii } else col)
  (dedupeColumns scrubbed, dropped)

/-- The function `strip_policy_banned`: keep only columns whose lowercased
name is not an exact member of `BANNED_NAMES`. -/
def stripPolicyBanned (df : DataFrame) : DataFrame :=
  df.filter (fun col => !(bannedNames.contains (lowerName col.name)))

/-- The sanitizer of the spec: the PII column drop with value scrubbing,
followed by the policy-banned column removal. -/
def sanitize (df : DataFrame) : DataFrame :=
  stripPolicyBanned (dropPiiColumns df).1

/-- Number of rows of a DataFrame (length of its first column). -/
def numRows (df : DataFrame) : Nat :=
  match df with
  | [] => 0
  | c :: _ => c.vals.length

/-- The four session columns appended by `append_user_info`, broadcast over
the rows of `df`. -/
def sessionCols (df : DataFrame) (uname uemail : Str) (flagged : Bool)
    (ts : Str) : List Column :=
  [⟨"session_user_name", true, List.replicate (numRows df) (Val.str uname)⟩,
   ⟨"session_user_email", true, List.replicate (numRows df) (Val.str uemail)⟩,
   ⟨"session_flagged", false, List.replicate (numRows df) (Val.bool flagged)⟩,
   ⟨"created_at", true, List.replicate (numRows df) (Val.str ts)⟩]

/-- The function `append_user_info` with the session metadata passed
explicitly: broadcast the four session fields as new columns and dedupe. -/
def appendUserInfo (df : DataFrame) (uname uemail : Str) (flagged : Bool)
    (ts : Str) : DataFrame :=
  dedupeColumns (df ++ sessionCols df uname uemail flagged ts)

/-- First column of the given name, modelling pandas column selection on a
frame with unique column names. -/
def lookupCol (df : DataFrame) (s : String) : Option Column :=
  df.find? (fun c => decide (c.name = s))

/-- Python `name in df.columns`. -/
def hasCol (df : DataFrame) (s : String) : Bool :=
  (lookupCol df s).isSome

/-- Cell list of the named column, empty if absent. -/
def getVals (df : DataFrame) (s : String) : List Val :=
  ((lookupCol df s).map (·.vals)).getD []

/-- Numeric value of a list of decimal digits. -/
def digitsVal (ds : Str) : Nat :=
  ds.foldl (fun a c => 10 * a + (c.toNat - '0'.toNat)) 0

/-- Unsigned plain decimal literal, as accepted by the Python float cast
(exponent and special forms are not modelled; they do not appear here). -/
def parseUnsigned (cs : Str) : Option ℚ :=
  let d1 := cs.takeWhile isReDigit
  match cs.dropWhile isReDigit with
  | [] => if d1.isEmpty then none else some (digitsVal d1 : Nat)
  | '.' :: rest =>
      let d2 := rest.takeWhile isReDigit
      if (rest.dropWhile isReDigit).isEmpty && !(d1.isEmpty && d2.isEmpty) then
        some ((digitsVal d1 : Nat) + ((digitsVal d2 : Nat) : ℚ) / (10 : ℚ) ^ d2.length)
      else none
  | _ => none

/-- Signed plain decimal literal with surrounding whitespace ignored. -/
def parseDecimal (cs : Str) : Option ℚ :=
  match pyStrip cs with
  | '+' :: rest => parseUnsigned rest
  | '-' :: rest => (parseUnsigned rest).map Neg.neg
  | t => parseUnsigned t

/-- The pandas float cast `astype(float)` on one cell: numbers pass through,
booleans become 0 or 1, strings must parse as a decimal literal or the cast
raises (modelled as `none`). -/
def asFloatCast (v : Val) : Option ℚ :=
  match v with
  | .num q => some q
  | .bool b => some (if b then 1 else 0)
  | .str s => parseDecimal s

/-- Arithmetic view of a cell: numbers and booleans are usable, a string
operand raises a TypeError (modelled as `none`). -/
def asNum (v : Val) : Option ℚ :=
  match v with
  | .num q => some q
  | .bool b => some (if b then 1 else 0)
  | .str _ => none

/-- Column copied by `df.get(name, 0)`: the column if present, else the
scalar default 0 broadcast over the rows. -/
def getColOr (df : DataFrame) (s : String) (n : Nat) : Bool × List Val :=
  match lookupCol df s with
  | some c => (c.obj, c.vals)
  | none => (false, List.replicate n (Val.num 0))

/-- Row value of the synthesized debt-to-income column: the quotient with
zero incomes sent to NaN and then filled with 0, clipped to the range 0..10.
In the rational model the zero-denominator case is written explicitly. -/
def dtiRowVal (ed inc : ℚ) : ℚ :=
  max 0 (min 10 (if inc = 0 then 0 else ed / inc))

/-- The employment-years block of `to_agent_schema`: when the field is
absent, copy `employment_length` or a broadcast 0. -/
def schemaAdd1 (df : DataFrame) : List Column :=
  if hasCol df "employment_years" then [] else
    [⟨"employment_years", (getColOr df "employment_length" (numRows df)).1,
      (getColOr df "employment_length" (numRows df)).2⟩]

/-- The debt-to-income block of `to_agent_schema`: when the field is absent,
a float copy of `DTI`, else the clipped NaN-filled quotient, else zeros.
`none` models the raised cast or arithmetic type error. -/
def schemaAdd2 (df : DataFrame) : Option (List Column) :=
  if hasCol df "debt_to_income" then some []
  else if hasCol df "DTI" then
    ((getVals df "DTI").mapM asFloatCast).map
      (fun qs => [⟨"debt_to_income", false, qs.map Val.num⟩])
  else if hasCol df "existing_debt" && hasCol df "income" then
    (((getVals df "existing_debt").zip (getVals df "income")).mapM
      (fun (p : Val × Val) => do
        let a ← asNum p.1
        let b ← asNum p.2
        pure (Val.num (dtiRowVal a b)))).map
      (fun vs => [⟨"debt_to_income", false, vs⟩])
  else some [⟨"debt_to_income", false, List.replicate (numRows df) (Val.num 0)⟩]

/-- The credit-history block of `to_agent_schema`: seeded uniform draws over
0..29 when the field is absent. -/
def schemaAdd3 (pcg : Nat → Nat → Nat) (df : DataFrame) : List Column :=
  if hasCol df "credit_history_length" then [] else
    [⟨"credit_history_length", false,
      (List.range (numRows df)).map
        (fun i => Val.num ((pcg 12345 i % 30 : Nat) : ℚ))⟩]

/-- The delinquencies block of `to_agent_schema`: seeded Poisson draws
capped at 10 when the field is absent.  The draws consume the seeded stream
after the credit-history draws exactly when those were taken. -/
def schemaAdd4 (pcg : Nat → Nat → Nat) (df : DataFrame) : List Column :=
  if hasCol df "num_delinquencies" then [] else
    [⟨"num_delinquencies", false,
      (List.range (numRows df)).map (fun i =>
        Val.num ((min
          (pcg 12345 ((if hasCol df "credit_history_length" then 0 else numRows df) + i))
          10 : Nat) : ℚ))⟩]

/-- The requested-amount block of `to_agent_schema`. -/
def schemaAdd5 (df : DataFrame) : List Column :=
  if hasCol df "requested_amount" then [] else
    [⟨"requested_amount", (getColOr df "loan_amount" (numRows df)).1,
      (getColOr df "loan_amount" (numRows df)).2⟩]

/-- The loan-term block of `to_agent_schema`. -/
def schemaAdd6 (df : DataFrame) : List Column :=
  if hasCol df "loan_term_months" then [] else
    [⟨"loan_term_months", (getColOr df "loan_duration_months" (numRows df)).1,
      (getColOr df "loan_duration_months" (numRows df)).2⟩]

/-- The function `to_agent_schema`: synthesize each missing canonical field
in source order, then deduplicate columns.  `pcg` is the deterministic draw
stream of the numpy generator seeded with 12345.  Returns `none` when the
float cast of a `DTI` column raises. -/
def toAgentSchema (pcg : Nat → Nat → Nat) (df : DataFrame) : Option DataFrame :=
  match schemaAdd2 df with
  | none => none
  | some a2 =>
      some (dedupeColumns (df ++ schemaAdd1 df ++ a2 ++ schemaAdd3 pcg df ++
        schemaAdd4 pcg df ++ schemaAdd5 df ++ schemaAdd6 df))

/-- The epsilon guard used by the metric derivations. -/
def eps : ℚ := 1 / 1000000000

/-- Clip to the unit interval, as in `Series.clip(0, 1)`. -/
def clip01 (x : ℚ) : ℚ := max 0 (min 1 x)

/-- Clip to the interval 0..3, as in `Series.clip(0, 3)`. -/
def clip03 (x : ℚ) : ℚ := max 0 (min 3 x)

/-- Rounding to two decimal places, as in `Series.round(2)` (tie behaviour
is irrelevant to the claims and is modelled as round half up). -/
def round2 (q : ℚ) : ℚ := ((⌊q * 100 + 1/2⌋ : ℤ) : ℚ) / 100

/-- A bounded integer draw `rng.integers(lo, hi)` from one raw draw. -/
def uniformInt (lo hi d : Nat) : Nat := lo + d % (hi - lo)

/-- The comparison `rng.random() < q` from one raw draw (53-bit uniform). -/
def u01lt (d : Nat) (q : ℚ) : Bool :=
  decide (((d % 2 ^ 53 : Nat) : ℚ) / (2 : ℚ) ^ 53 < q)

/-- A choice from a list, `rng.choice(l)`, from one raw draw. -/
def chooseFrom (l : List Str) (d : Nat) : Str := l.getD (d % l.length) []

/-- A numeric choice from a list from one raw draw. -/
def chooseNum (l : List ℚ) (d : Nat) : ℚ := l.getD (d % l.length) 0

/-- The weighted choice of `co_loaners` with weights 0.70, 0.25, 0.05. -/
def chooseCoLoaners (d : Nat) : ℚ :=
  if d % 100 < 70 then 0 else if d % 100 < 95 then 1 else 2

/-- Zero-padded four-digit rendering used by the application id format. -/
def pad4 (k : Nat) : Str :=
  let t := (Nat.repr k).toList
  List.replicate (4 - t.length) '0' ++ t

/-- The application id string of row `i` (1-based in the source). -/
def appIdStr (i : Nat) : Str := "APP_".toList ++ pad4 i

/-- The fixed customer-name pool of the raw generator. -/
def rawNames : List Str :=
  ["Alice Nguyen", "Bao Tran", "Chris Do", "Duy Le", "Emma Tran",
   "Felix Nguyen", "Giang Ho", "Hanh Vo", "Ivan Pham", "Julia Ngo"].map
    String.toList

/-- The derived email pool (first.last at gmail, lowercased, as the source
comprehension produces from the name pool). -/
def rawEmails : List Str :=
  ["alice.nguyen@gmail.com", "bao.tran@gmail.com", "chris.do@gmail.com",
   "duy.le@gmail.com", "emma.tran@gmail.com", "felix.nguyen@gmail.com",
   "giang.ho@gmail.com", "hanh.vo@gmail.com", "ivan.pham@gmail.com",
   "julia.ngo@gmail.com"].map String.toList

/-- The fixed address pool of the raw generator. -/
def rawAddrs : List Str :=
  ["23 Elm St, Boston, MA", "19 Pine Ave, San Jose, CA",
   "14 High St, London, UK", "55 Nguyen Hue, Ho Chi Minh",
   "78 Oak St, Chicago, IL", "10 Broadway, New York, NY",
   "8 Rue Lafayette, Paris, FR", "21 Königstr, Berlin, DE",
   "44 Maple Dr, Los Angeles, CA", "22 Bay St, Toronto, CA"].map
    String.toList

/-- The collateral-type pool. -/
def collateralTypes : List Str :=
  ["real_estate", "car", "land", "deposit"].map String.toList

/-- The allowed loan terms pool. -/
def loanTermsPool : List ℚ := [12, 24, 36, 48, 60, 72]

/-- The formatted phone string of row `i`. -/
def phoneStr (i : Nat) : Str :=
  "+1-202-555-".toList ++ (Nat.repr (1000 + i)).toList

/-- Unscaled income draw of the raw generator (fourth seeded call, after
the non-bank draws, national ids and ages, hence offset `3 * n`). -/
def rawIncome (pcg : Nat → Nat → Nat) (n i : Nat) : ℚ :=
  (uniformInt 25000 150000 (pcg 42 (3 * n + i)) : Nat)

/-- Employment length draw of the raw generator. -/
def rawEmploymentLen (pcg : Nat → Nat → Nat) (n i : Nat) : ℚ :=
  (uniformInt 0 30 (pcg 42 (4 * n + i)) : Nat)

/-- Unscaled loan amount draw of the raw generator. -/
def rawLoanAmount (pcg : Nat → Nat → Nat) (n i : Nat) : ℚ :=
  (uniformInt 5000 100000 (pcg 42 (5 * n + i)) : Nat)

/-- Loan duration draw of the raw generator. -/
def rawLoanDuration (pcg : Nat → Nat → Nat) (n i : Nat) : ℚ :=
  chooseNum loanTermsPool (pcg 42 (6 * n + i))

/-- Unscaled collateral value draw of the raw generator. -/
def rawCollateralValue (pcg : Nat → Nat → Nat) (n i : Nat) : ℚ :=
  (uniformInt 8000 200000 (pcg 42 (7 * n + i)) : Nat)

/-- Unscaled existing debt draw of the raw generator. -/
def rawExistingDebt (pcg : Nat → Nat → Nat) (n i : Nat) : ℚ :=
  (uniformInt 0 50000 (pcg 42 (11 * n + i)) : Nat)

/-- Unscaled assets draw of the raw generator. -/
def rawAssetsOwned (pcg : Nat → Nat → Nat) (n i : Nat) : ℚ :=
  (uniformInt 10000 300000 (pcg 42 (12 * n + i)) : Nat)

/-- Derived DTI of the raw generator, computed on the unscaled draws. -/
def rawDTI (pcg : Nat → Nat → Nat) (n i : Nat) : ℚ :=
  rawExistingDebt pcg n i / (rawIncome pcg n i + eps)

/-- Derived LTV of the raw generator. -/
def rawLTV (pcg : Nat → Nat → Nat) (n i : Nat) : ℚ :=
  rawLoanAmount pcg n i / (rawCollateralValue pcg n i + eps)

/-- Derived CCR of the raw generator. -/
def rawCCR (pcg : Nat → Nat → Nat) (n i : Nat) : ℚ :=
  rawCollateralValue pcg n i / (rawLoanAmount pcg n i + eps)

/-- Derived ITI of the raw generator. -/
def rawITI (pcg : Nat → Nat → Nat) (n i : Nat) : ℚ :=
  (rawLoanAmount pcg n i / (rawLoanDuration pcg n i + eps)) /
    (rawIncome pcg n i + eps)

/-- Derived CWI of the raw generator. -/
def rawCWI (pcg : Nat → Nat → Nat) (n i : Nat) : ℚ :=
  clip01 (1 - rawDTI pcg n i) * clip01 (1 - rawLTV pcg n i) *
    clip03 (rawCCR pcg n i)

/-- Column construction of `generate_raw_synthetic`.  `pcg` is the
deterministic draw stream family of numpy bit generators by seed (the source
seeds it with 42); `g` is the draw stream of the ambient, unseeded global
numpy state that the three `np.random.choice` calls consume; `fx` and
`ccode` are the session currency multiplier and code.  Metric columns are
computed from the unscaled draws; the five monetary columns are then scaled
and rounded in place. -/
def rawCols (pcg : Nat → Nat → Nat) (g : Nat → Nat) (n : Nat)
    (ratio fx : ℚ) (ccode : Str) : DataFrame :=
  [
    ⟨"application_id", true, (List.range n).map (fun i => Val.str (appIdStr (i+1)))⟩,
    ⟨"customer_name", true, (List.range n).map (fun i => Val.str (chooseFrom rawNames (g i)))⟩,
    ⟨"email", true, (List.range n).map (fun i => Val.str (chooseFrom rawEmails (g (n + i))))⟩,
    ⟨"phone", true, (List.range n).map (fun i => Val.str (phoneStr i))⟩,
    ⟨"address", true, (List.range n).map (fun i => Val.str (chooseFrom rawAddrs (g (2 * n + i))))⟩,
    ⟨"national_id", false, (List.range n).map (fun i => Val.num (uniformInt 10000000 99999999 (pcg 42 (n + i)) : Nat))⟩,
    ⟨"age", false, (List.range n).map (fun i => Val.num (uniformInt 21 65 (pcg 42 (2 * n + i)) : Nat))⟩,
    ⟨"income", false, (List.range n).map (fun i => Val.num (round2 (rawIncome pcg n i * fx)))⟩,
    ⟨"employment_length", false, (List.range n).map (fun i => Val.num (rawEmploymentLen pcg n i))⟩,
    ⟨"loan_amount", false, (List.range n).map (fun i => Val.num (round2 (rawLoanAmount pcg n i * fx)))⟩,
    ⟨"loan_duration_months", false, (List.range n).map (fun i => Val.num (rawLoanDuration pcg n i))⟩,
    ⟨"collateral_value", false, (List.range n).map (fun i => Val.num (round2 (rawCollateralValue pcg n i * fx)))⟩,
    ⟨"collateral_type", true, (List.range n).map (fun i => Val.str (chooseFrom collateralTypes (pcg 42 (8 * n + i))))⟩,
    ⟨"co_loaners", false, (List.range n).map (fun i => Val.num (chooseCoLoaners (pcg 42 (9 * n + i))))⟩,
    ⟨"credit_score", false, (List.range n).map (fun i => Val.num (uniformInt 300 850 (pcg 42 (10 * n + i)) : Nat))⟩,
    ⟨"existing_debt", false, (List.range n).map (fun i => Val.num (round2 (rawExistingDebt pcg n i * fx)))⟩,
    ⟨"assets_owned", false, (List.range n).map (fun i => Val.num (round2 (rawAssetsOwned pcg n i * fx)))⟩,
    ⟨"current_loans", false, (List.range n).map (fun i => Val.num (uniformInt 0 5 (pcg 42 (13 * n + i)) : Nat))⟩,
    ⟨"customer_type", true, (List.range n).map (fun i => Val.str (if u01lt (pcg 42 i) ratio then "non-bank".toList else "bank".toList))⟩,
    ⟨"DTI", false, (List.range n).map (fun i => Val.num (rawDTI pcg n i))⟩,
    ⟨"LTV", false, (List.range n).map (fun i => Val.num (rawLTV pcg n i))⟩,
    ⟨"CCR", false, (List.range n).map (fun i => Val.num (rawCCR pcg n i))⟩,
    ⟨"ITI", false, (List.range n).map (fun i => Val.num (rawITI pcg n i))⟩,
    ⟨"CWI", false, (List.range n).map (fun i => Val.num (rawCWI pcg n i))⟩,
    ⟨"currency_code", true, (List.range n).map (fun _ => Val.str ccode)⟩]

/-- The function `generate_raw_synthetic`: the column construction above
followed by the final `dedupe_columns`. -/
def generateRawSynthetic (pcg : Nat → Nat → Nat) (g : Nat → Nat) (n : Nat)
    (ratio fx : ℚ) (ccode : Str) : DataFrame :=
  dedupeColumns (rawCols pcg g n ratio fx ccode)

/-- Unscaled income draw of the anonymous generator (its second seeded call
after the non-bank draws and ages). -/
def anonIncome (pcg : Nat → Nat → Nat) (n i : Nat) : ℚ :=
  (uniformInt 25000 150000 (pcg 42 (2 * n + i)) : Nat)

/-- Employment length draw of the anonymous generator. -/
def anonEmploymentLen (pcg : Nat → Nat → Nat) (n i : Nat) : ℚ :=
  (uniformInt 0 30 (pcg 42 (3 * n + i)) : Nat)

/-- Unscaled loan amount draw of the anonymous generator. -/
def anonLoanAmount (pcg : Nat → Nat → Nat) (n i : Nat) : ℚ :=
  (uniformInt 5000 100000 (pcg 42 (4 * n + i)) : Nat)

/-- Loan duration draw of the anonymous generator. -/
def anonLoanDuration (pcg : Nat → Nat → Nat) (n i : Nat) : ℚ :=
  chooseNum loanTermsPool (pcg 42 (5 * n + i))

/-- Unscaled collateral value draw of the anonymous generator. -/
def anonCollateralValue (pcg : Nat → Nat → Nat) (n i : Nat) : ℚ :=
  (uniformInt 8000 200000 (pcg 42 (6 * n + i)) : Nat)

/-- Unscaled existing debt draw of the anonymous generator. -/
def anonExistingDebt (pcg : Nat → Nat → Nat) (n i : Nat) : ℚ :=
  (uniformInt 0 50000 (pcg 42 (10 * n + i)) : Nat)

/-- Unscaled assets draw of the anonymous generator. -/
def anonAssetsOwned (pcg : Nat → Nat → Nat) (n i : Nat) : ℚ :=
  (uniformInt 10000 300000 (pcg 42 (11 * n + i)) : Nat)

/-- Derived DTI of the anonymous generator. -/
def anonDTI (pcg : Nat → Nat → Nat) (n i : Nat) : ℚ :=
  anonExistingDebt pcg n i / (anonIncome pcg n i + eps)

/-- Derived LTV of the anonymous generator. -/
def anonLTV (pcg : Nat → Nat → Nat) (n i : Nat) : ℚ :=
  anonLoanAmount pcg n i / (anonCollateralValue pcg n i + eps)

/-- Derived CCR of the anonymous generator. -/
def anonCCR (pcg : Nat → Nat → Nat) (n i : Nat) : ℚ :=
  anonCollateralValue pcg n i / (anonLoanAmount pcg n i + eps)

/-- Derived ITI of the anonymous generator. -/
def anonITI (pcg : Nat → Nat → Nat) (n i : Nat) : ℚ :=
  (anonLoanAmount pcg n i / (anonLoanDuration pcg n i + eps)) /
    (anonIncome pcg n i + eps)

/-- Derived CWI of the anonymous generator. -/
def anonCWI (pcg : Nat → Nat → Nat) (n i : Nat) : ℚ :=
  clip01 (1 - anonDTI pcg n i) * clip01 (1 - anonLTV pcg n i) *
    clip03 (anonCCR pcg n i)

/-- Column construction of `generate_anon_synthetic`.  The ambient global
stream `g` is in scope for a run but never consumed: every draw uses the
generator seeded with 42. -/
def anonCols (pcg : Nat → Nat → Nat) (g : Nat → Nat) (n : Nat)
    (ratio fx : ℚ) (ccode : Str) : DataFrame :=
  [
    ⟨"application_id", true, (List.range n).map (fun i => Val.str (appIdStr (i+1)))⟩,
    ⟨"age", false, (List.range n).map (fun i => Val.num (uniformInt 21 65 (pcg 42 (n + i)) : Nat))⟩,
    ⟨"income", false, (List.range n).map (fun i => Val.num (round2 (anonIncome pcg n i * fx)))⟩,
    ⟨"employment_length", false, (List.range n).map (fun i => Val.num (anonEmploymentLen pcg n i))⟩,
    ⟨"loan_amount", false, (List.range n).map (fun i => Val.num (round2 (anonLoanAmount pcg n i * fx)))⟩,
    ⟨"loan_duration_months", false, (List.range n).map (fun i => Val.num (anonLoanDuration pcg n i))⟩,
    ⟨"collateral_value", false, (List.range n).map (fun i => Val.num (round2 (anonCollateralValue pcg n i * fx)))⟩,
    ⟨"collateral_type", true, (List.range n).map (fun i => Val.str (chooseFrom collateralTypes (pcg 42 (7 * n + i))))⟩,
    ⟨"co_loaners", false, (List.range n).map (fun i => Val.num (chooseCoLoaners (pcg 42 (8 * n + i))))⟩,
    ⟨"credit_score", false, (List.range n).map (fun i => Val.num (uniformInt 300 850 (pcg 42 (9 * n + i)) : Nat))⟩,
    ⟨"existing_debt", false, (List.range n).map (fun i => Val.num (round2 (anonExistingDebt pcg n i * fx)))⟩,
    ⟨"assets_owned", false, (List.range n).map (fun i => Val.num (round2 (anonAssetsOwned pcg n i * fx)))⟩,
    ⟨"current_loans", false, (List.range n).map (fun i => Val.num (uniformInt 0 5 (pcg 42 (12 * n + i)) : Nat))⟩,
    ⟨"customer_type", true, (List.range n).map (fun i => Val.str (if u01lt (pcg 42 i) ratio then "non-bank".toList else "bank".toList))⟩,
    ⟨"DTI", false, (List.range n).map (fun i => Val.num (anonDTI pcg n i))⟩,
    ⟨"LTV", false, (List.range n).map (fun i => Val.num (anonLTV pcg n i))⟩,
    ⟨"CCR", false, (List.range n).map (fun i => Val.num (anonCCR pcg n i))⟩,
    ⟨"ITI", false, (List.range n).map (fun i => Val.num (anonITI pcg n i))⟩,
    ⟨"CWI", false, (List.range n).map (fun i => Val.num (anonCWI pcg n i))⟩,
    ⟨"currency_code", true, (List.range n).map (fun _ => Val.str ccode)⟩]

/-- The function `generate_anon_synthetic`: the column construction above
followed by the final `dedupe_columns`. -/
def generateAnonSynthetic (pcg : Nat → Nat → Nat) (g : Nat → Nat) (n : Nat)
    (ratio fx : ℚ) (ccode : Str) : DataFrame :=
  dedupeColumns (anonCols pcg g n ratio fx ccode)

/-- The five derived metric columns of the raw generator, independent of
the currency multiplier and the global stream. -/
def rawMetricCols (pcg : Nat → Nat → Nat) (n : Nat) : DataFrame :=
  [⟨"DTI", false, (List.range n).map (fun i => Val.num (rawDTI pcg n i))⟩,
   ⟨"LTV", false, (List.range n).map (fun i => Val.num (rawLTV pcg n i))⟩,
   ⟨"CCR", false, (List.range n).map (fun i => Val.num (rawCCR pcg n i))⟩,
   ⟨"ITI", false, (List.range n).map (fun i => Val.num (rawITI pcg n i))⟩,
   ⟨"CWI", false, (List.range n).map (fun i => Val.num (rawCWI pcg n i))⟩]

/-- The five derived metric columns of the anonymous generator. -/
def anonMetricCols (pcg : Nat → Nat → Nat) (n : Nat) : DataFrame :=
  [⟨"DTI", false, (List.range n).map (fun i => Val.num (anonDTI pcg n i))⟩,
   ⟨"LTV", false, (List.range n).map (fun i => Val.num (anonLTV pcg n i))⟩,
   ⟨"CCR", false, (List.range n).map (fun i => Val.num (anonCCR pcg n i))⟩,
   ⟨"ITI", false, (List.range n).map (fun i => Val.num (anonITI pcg n i))⟩,
   ⟨"CWI", false, (List.range n).map (fun i => Val.num (anonCWI pcg n i))⟩]

/-- Modelled from the spec: the normalized record the Rule Evaluator reads.
The evaluator itself lives in the external scoring agent and is not part of
this repository tree; fields follow the predicate list of the spec. -/
structure NormRecord where
  dti : ℚ
  employmentYears : ℚ
  creditHistoryLength : ℚ
  monthlyIncome : ℚ
  numDelinquencies : ℚ
  currentLoans : ℚ
  requestedAmount : ℚ
  loanTermMonths : ℚ
  income : ℚ
  monthlyObligations : ℚ

/-- Modelled from the spec: the threshold set carried by a Classic policy. -/
structure ClassicPolicy where
  maxDti : ℚ
  minEmploymentYears : ℚ
  minCreditHistory : ℚ
  salaryFloor : ℚ
  maxDelinquencies : ℚ
  maxCurrentLoans : ℚ
  reqMin : ℚ
  reqMax : ℚ
  allowedTerms : List ℚ
  debtFactor : ℚ
  debtRelief : ℚ
  minIncomeDebtRate : ℚ

/-- Modelled from the spec: the two NDI thresholds. -/
structure NdiPolicy where
  minNdiValue : ℚ
  minNdiShare : ℚ

/-- Modelled from the spec: a rule policy is Classic or NDI. -/
inductive RulePolicy where
  | classic : ClassicPolicy → RulePolicy
  | ndi : NdiPolicy → RulePolicy

/-- Modelled from the spec: the per-rule boolean breakdown of the Classic
predicates, each independently evaluated. -/
def classicReasons (p : ClassicPolicy) (r : NormRecord) : List Bool :=
  [decide (r.dti ≤ p.maxDti),
   decide (p.minEmploymentYears ≤ r.employmentYears),
   decide (p.minCreditHistory ≤ r.creditHistoryLength),
   decide (p.salaryFloor ≤ r.monthlyIncome),
   decide (r.numDelinquencies ≤ p.maxDelinquencies),
   decide (r.currentLoans ≤ p.maxCurrentLoans),
   decide (p.reqMin ≤ r.requestedAmount ∧ r.requestedAmount ≤ p.reqMax),
   p.allowedTerms.contains r.loanTermMonths,
   decide (p.minIncomeDebtRate ≤
     r.income / (p.debtFactor * r.requestedAmount - p.debtRelief * r.monthlyObligations))]

/-- Modelled from the spec: the two NDI predicates. -/
def ndiReasons (p : NdiPolicy) (r : NormRecord) : List Bool :=
  [decide (p.minNdiValue ≤ r.income - r.monthlyObligations),
   decide (p.minNdiShare ≤ (r.income - r.monthlyObligations) / r.income)]

/-- Modelled from the spec: the reasons mapping of either policy kind. -/
def reasonsOf (pol : RulePolicy) (r : NormRecord) : List Bool :=
  match pol with
  | .classic p => classicReasons p r
  | .ndi p => ndiReasons p r

/-- Modelled from the spec: score is the fraction of predicates passed. -/
def scoreOf (pol : RulePolicy) (r : NormRecord) : ℚ :=
  (((reasonsOf pol r).count true : Nat) : ℚ) / (((reasonsOf pol r).length : Nat) : ℚ)

/-- Modelled from the spec: the fixed-threshold decision mode with ties
passing. -/
def approvedFixed (pol : RulePolicy) (t : ℚ) (r : NormRecord) : Bool :=
  decide (t ≤ scoreOf pol r)

/-- Modelled from the spec: number of approved records of a batch in the
fixed-threshold mode. -/
def approvalCount (pol : RulePolicy) (t : ℚ) (batch : List NormRecord) : Nat :=
  batch.countP (approvedFixed pol t)

/-- Last column of the given name, the occurrence that survives keep-last
deduplication. -/
def lookupLast (df : DataFrame) (s : String) : Option Column :=
  df.reverse.find? (fun c => decide (c.name = s))

/-- The PII token set named by the completeness claim (the source constant
additionally lists `customer_name`, which the token `name` subsumes). -/
def claimPiiSet : List String :=
  ["name", "email", "phone", "address", "ssn", "national_id", "dob"]

/-- The six canonical fields of the agent schema. -/
def canonicalFields : List String :=
  ["employment_years", "debt_to_income", "credit_history_length",
   "num_delinquencies", "requested_amount", "loan_term_months"]

/-- The five derived metric column names. -/
def metricNames : List String := ["DTI", "LTV", "CCR", "ITI", "CWI"]

/-- The derived-metric columns of a frame. -/
def metricCols (df : DataFrame) : DataFrame :=
  df.filter (fun c => metricNames.contains c.name)

/-- A numeric cell: a number or a boolean (pandas float casts and
arithmetic accept both). -/
def isNumCell : Val → Bool
  | .num _ => true
  | .bool _ => true
  | .str _ => false

/-- A column all of whose cells are numeric; vacuously true when the column
is absent. -/
def numericCol (df : DataFrame) (s : String) : Bool :=
  (getVals df s).all isNumCell

/-- Numeric cells exactly where the debt-to-income synthesis reads values:
the `DTI`, `existing_debt` and `income` columns (each when present).  Every
other column may hold arbitrary values — only these three feed the float
cast and the quotient. -/
def dtiOperandsNumeric (df : DataFrame) : Bool :=
  numericCol df "DTI" && numericCol df "existing_debt" && numericCol df "income" 

/-- Relation between a string and the result of one substitution pass: the
output is the input with some nonempty substrings removed, each removed
substring satisfying the pattern `P`. -/
inductive SubScrub (P : Str → Prop) : Str → Str → Prop where
  | nil : SubScrub P [] []
  | keep (c : Char) {s t : Str} : SubScrub P s t → SubScrub P (c :: s) (c :: t)
  | rem (m : Str) {s t : Str} : P m → m ≠ [] → SubScrub P s t → SubScrub P (m ++ s) t

/-- Declarative reading of `EMAIL_RE`: a nonempty run of local characters,
an at sign, a nonempty run of domain characters, a dot, and at least two
letters. -/
def EmailPat (w : Str) : Prop :=
  ∃ l d t, w = l ++ '@' :: (d ++ '.' :: t) ∧
    l ≠ [] ∧ (∀ c ∈ l, isLocalChar c = true) ∧
    d ≠ [] ∧ (∀ c ∈ d, isDomainChar c = true) ∧
    2 ≤ t.length ∧ (∀ c ∈ t, isReAlpha c = true)

/-- Declarative reading of `PHONE_RE`: an optional plus sign, a digit, at
least six middle characters (digits, dashes, spaces), and a final digit. -/
def PhonePat (w : Str) : Prop :=
  ∃ pl d0 mid d1, w = pl ++ d0 :: (mid ++ [d1]) ∧
    (pl = [] ∨ pl = ['+']) ∧ isReDigit d0 = true ∧ isReDigit d1 = true ∧
    6 ≤ mid.length ∧ (∀ c ∈ mid, isPhoneMid c = true)

/-- The plus-free part of the phone pattern: a digit, at least six middle
characters, and a final digit. -/
def PhonePatCore (w : Str) : Prop :=
  ∃ d0 mid d1, w = d0 :: (mid ++ [d1]) ∧
    isReDigit d0 = true ∧ isReDigit d1 = true ∧
    6 ≤ mid.length ∧ (∀ c ∈ mid, isPhoneMid c = true)

/-- All row-level guarantees of the derived metrics of both generators:
each metric column of the generated frame holds the stated formula at row
`i`, the signs and bounds of the claim hold, and every epsilon-guarded
denominator is strictly positive. -/
def metricsRowOk (pcg : Nat → Nat → Nat) (g : Nat → Nat) (n : Nat)
    (ratio fx : ℚ) (ccode : Str) (i : Nat) : Prop :=
  ((getVals (generateRawSynthetic pcg g n ratio fx ccode) "DTI")[i]? =
      some (Val.num (rawDTI pcg n i)) ∧
   (getVals (generateRawSynthetic pcg g n ratio fx ccode) "LTV")[i]? =
      some (Val.num (rawLTV pcg n i)) ∧
   (getVals (generateRawSynthetic pcg g n ratio fx ccode) "CCR")[i]? =
      some (Val.num (rawCCR pcg n i)) ∧
   (getVals (generateRawSynthetic pcg g n ratio fx ccode) "ITI")[i]? =
      some (Val.num (rawITI pcg n i)) ∧
   (getVals (generateRawSynthetic pcg g n ratio fx ccode) "CWI")[i]? =
      some (Val.num (rawCWI pcg n i))) ∧
  ((getVals (generateAnonSynthetic pcg g n ratio fx ccode) "DTI")[i]? =
      some (Val.num (anonDTI pcg n i)) ∧
   (getVals (generateAnonSynthetic pcg g n ratio fx ccode) "LTV")[i]? =
      some (Val.num (anonLTV pcg n i)) ∧
   (getVals (generateAnonSynthetic pcg g n ratio fx ccode) "CCR")[i]? =
      some (Val.num (anonCCR pcg n i)) ∧
   (getVals (generateAnonSynthetic pcg g n ratio fx ccode) "ITI")[i]? =
      some (Val.num (anonITI pcg n i)) ∧
   (getVals (generateAnonSynthetic pcg g n ratio fx ccode) "CWI")[i]? =
      some (Val.num (anonCWI pcg n i))) ∧
  (0 ≤ rawDTI pcg n i ∧ 0 ≤ rawLTV pcg n i ∧ 0 ≤ rawITI pcg n i ∧
   0 ≤ rawCWI pcg n i ∧ rawCWI pcg n i ≤ 3) ∧
  (0 ≤ anonDTI pcg n i ∧ 0 ≤ anonLTV pcg n i ∧ 0 ≤ anonITI pcg n i ∧
   0 ≤ anonCWI pcg n i ∧ anonCWI pcg n i ≤ 3) ∧
  (0 < rawIncome pcg n i + eps ∧ 0 < rawCollateralValue pcg n i + eps ∧
   0 < rawLoanAmount pcg n i + eps ∧ 0 < rawLoanDuration pcg n i + eps) ∧
  (0 < anonIncome pcg n i + eps ∧ 0 < anonCollateralValue pcg n i + eps ∧
   0 < anonLoanAmount pcg n i + eps ∧ 0 < anonLoanDuration pcg n i + eps)

/-- The all-zero draw stream, a concrete bit-generator stand-in. -/
def zeroStream : Nat → Nat := fun _ => 0

/-- The all-one draw stream, a second concrete global state. -/
def oneStream : Nat → Nat := fun _ => 1

/-- A concrete seeded-stream family stand-in. -/
def zeroPcg : Nat → Nat → Nat := fun _ _ => 0

/-- Concrete frame whose text value gains a spliced email address under
scrubbing: the phone substitution removes the digits standing between a
local part and a valid domain. -/
def idemCexDf : DataFrame :=
  [⟨"notes", true, [Val.str ("x@d+12345678909.cc".toList)]⟩]

/-- Concrete frame on which the float cast of the schema normalizer raises:
a `DTI` column holding a non-numeric string. -/
def schemaCexDf : DataFrame :=
  [⟨"DTI", true, [Val.str ("abc".toList)]⟩]

/-- Concrete frame with a string id column alongside numeric operand
columns, exercising the quotient branch of the debt-to-income synthesis. -/
def schemaSampleDf : DataFrame :=
  [⟨"application_id", true,
    [Val.str ("APP_0001".toList), Val.str ("APP_0002".toList)]⟩,
   ⟨"income", false, [Val.num 1000, Val.num 0]⟩,
   ⟨"existing_debt", false, [Val.num 500, Val.num 7]⟩]

/-- Concrete frame for the session-column claims. -/
def userSampleDf : DataFrame := [⟨"amount", false, [Val.num 1]⟩]

/-- Concrete Classic policy for the evaluator claims. -/
def samplePolicy : RulePolicy :=
  .classic ⟨45/100, 2, 3, 3000, 2, 3, 1000, 50000, [12, 24, 36], 1, 0, 1⟩

/-- Concrete one-record batch for the evaluator claims. -/
def sampleBatch : List NormRecord :=
  [⟨3/10, 5, 6, 4000, 0, 1, 10000, 24, 5000, 2000⟩]

/-- Numeric reading of a cell, total on numbers and booleans (the string
case is unreachable under the numeric-frame hypotheses). -/
def numOf : Val → ℚ
  | .num q => q
  | .bool b => if b then 1 else 0
  | .str _ => 0

/-- All conclusions of the session-column claim: on a frame free of the four
session columns the function appends exactly those columns and changes
nothing else; and the output of the sanitize flow (PII drop, then user-info
append, on any frame `df0`) always carries the two session columns that a
subsequent PII pass reports as dropped. -/
def appendFrameOk (df df0 : DataFrame) (uname uemail : Str) (flagged : Bool)
    (ts : Str) : Prop :=
  appendUserInfo df uname uemail flagged ts =
      df ++ sessionCols df uname uemail flagged ts ∧
  "session_user_name" ∈
    (dropPiiColumns (appendUserInfo (dropPiiColumns df0).1 uname uemail flagged ts)).2 ∧
  "session_user_email" ∈
    (dropPiiColumns (appendUserInfo (dropPiiColumns df0).1 uname uemail flagged ts)).2

/-- All conclusions of the normalizer-totality claim: the normalization
succeeds, yields every canonical field, keeps every input column name, and
adds no name outside the canonical six. -/
def schemaTotalOk (pcg : Nat → Nat → Nat) (df : DataFrame) : Prop :=
  ∃ out, toAgentSchema pcg df = some out ∧
    (∀ s ∈ canonicalFields, s ∈ out.map (·.name)) ∧
    (∀ s ∈ df.map (·.name), s ∈ out.map (·.name)) ∧
    (∀ s ∈ out.map (·.name), s ∈ df.map (·.name) ∨ s ∈ canonicalFields)

/-- All conclusions of the debt-to-income synthesis claim, for a frame
without that field: the synthesized column is the float copy of `DTI` when
present, else the clipped quotient when both operands exist, else zeros. -/
def dtiSynthOk (pcg : Nat → Nat → Nat) (df : DataFrame) : Prop :=
  ∃ out, toAgentSchema pcg df = some out ∧
    (hasCol df "DTI" = true →
      getVals out "debt_to_income" =
        (getVals df "DTI").map (fun v => Val.num (numOf v))) ∧
    (hasCol df "DTI" = false → hasCol df "existing_debt" = true →
      hasCol df "income" = true →
      getVals out "debt_to_income" =
        ((getVals df "existing_debt").zip (getVals df "income")).map
          (fun p => Val.num (max 0 (min 10 (numOf p.1 / numOf p.2))))) ∧
    (hasCol df "DTI" = false →
      (hasCol df "existing_debt" && hasCol df "income") = false →
      getVals out "debt_to_income" = List.replicate (numRows df) (Val.num 0))

/-- Value of the debt-to-income block on an all-numeric frame, with the
casts resolved. -/
def schemaAdd2Num (df : DataFrame) : List Column :=
  if hasCol df "debt_to_income" then []
  else if hasCol df "DTI" then
    [⟨"debt_to_income", false,
      (getVals df "DTI").map (fun v => Val.num (numOf v))⟩]
  else if hasCol df "existing_debt" && hasCol df "income" then
    [⟨"debt_to_income", false,
      ((getVals df "existing_debt").zip (getVals df "income")).map
        (fun p => Val.num (dtiRowVal (numOf p.1) (numOf p.2)))⟩]
  else [⟨"debt_to_income", false, List.replicate (numRows df) (Val.num 0)⟩]

end CreditLib

namespace CreditLib

theorem dedupe_sublist (df : DataFrame) : List.Sublist (dedupeColumns df) df := by
  induction df with
  | nil => exact List.Sublist.refl []
  | cons c rest ih =>
      rw [dedupeColumns]
      split
      · exact ih.cons c
      · exact ih.cons₂ c

theorem mem_of_mem_dedupe {df : DataFrame} {c : Column}
    (h : c ∈ dedupeColumns df) : c ∈ df :=
  (dedupe_sublist df).subset h

theorem dedupe_names_nodup (df : DataFrame) :
    ((dedupeColumns df).map (·.name)).Nodup := by
  induction df with
  | nil => simp [dedupeColumns]
  | cons c rest ih =>
      rw [dedupeColumns]
      split
      · exact ih
      · rename_i hany
        rw [List.map_cons, List.nodup_cons]
        refine ⟨?_, ih⟩
        intro hmem
        rw [List.mem_map] at hmem
        obtain ⟨d, hd, hdn⟩ := hmem
        exact hany (List.any_eq_true.mpr
          ⟨d, mem_of_mem_dedupe hd, by simp [hdn]⟩)

theorem dedupe_eq_self {df : DataFrame}
    (h : (df.map (·.name)).Nodup) : dedupeColumns df = df := by
  induction df with
  | nil => rfl
  | cons c rest ih =>
      rw [List.map_cons, List.nodup_cons] at h
      rw [dedupeColumns]
      have hany : rest.any (fun d => decide (d.name = c.name)) = false := by
        rw [List.any_eq_false]
        intro d hd
        simp only [decide_eq_true_eq]
        intro hdn
        exact h.1 (hdn ▸ List.mem_map_of_mem (·.name) hd)
      rw [hany]
      simp only [Bool.false_eq_true, if_false]
      rw [ih h.2]

theorem names_mem_dedupe {df : DataFrame} {s : String} :
    s ∈ (dedupeColumns df).map (·.name) ↔ s ∈ df.map (·.name) := by
  induction df with
  | nil => simp [dedupeColumns]
  | cons c rest ih =>
      rw [dedupeColumns]
      split
      · rename_i hany
        rw [ih, List.map_cons, List.mem_cons]
        constructor
        · exact Or.inr
        · rintro (rfl | hs)
          · obtain ⟨d, hd, hdn⟩ := List.any_eq_true.mp hany
            rw [decide_eq_true_eq] at hdn
            exact hdn ▸ List.mem_map_of_mem (·.name) hd
          · exact hs
      · rw [List.map_cons, List.map_cons, List.mem_cons, List.mem_cons, ih]

theorem scrubColName (c : Column) :
    (if c.obj then { c with vals := c.vals.map scrubTextPii } else c).name
      = c.name := by
  split <;> rfl

theorem mem_dropPii_fst {df : DataFrame} {c : Column}
    (h : c ∈ (dropPiiColumns df).1) :
    keepPii c.name = true ∧ ∃ b ∈ df, c.name = b.name := by
  simp only [dropPiiColumns] at h
  have h1 := mem_of_mem_dedupe h
  rw [List.mem_map] at h1
  obtain ⟨b, hb, rfl⟩ := h1
  rw [List.mem_filter] at hb
  rw [scrubColName]
  exact ⟨hb.2, b, hb.1, rfl⟩

theorem mem_sanitize {df : DataFrame} {c : Column} (hc : c ∈ sanitize df) :
    keepPii c.name = true ∧
    bannedNames.contains (lowerName c.name) = false := by
  unfold sanitize stripPolicyBanned at hc
  rw [List.mem_filter] at hc
  obtain ⟨hc1, hq⟩ := hc
  refine ⟨(mem_dropPii_fst hc1).1, ?_⟩
  simpa using hq

theorem contains_filter_keep (df : DataFrame) (s : String) :
    ((df.map (·.name)).filter keepPii).contains s = true ↔
      (s ∈ df.map (·.name) ∧ keepPii s = true) := by
  rw [List.contains_eq_any_beq, List.any_eq_true]
  constructor
  · rintro ⟨t, ht, hts⟩
    rw [beq_iff_eq] at hts
    subst hts
    exact List.mem_filter.mp ht
  · rintro ⟨h1, h2⟩
    exact ⟨s, List.mem_filter.mpr ⟨h1, h2⟩, by simp⟩

theorem dropPii_dropped_iff (df : DataFrame) (s : String) :
    s ∈ (dropPiiColumns df).2 ↔
      s ∈ df.map (·.name) ∧ keepPii s = false := by
  simp only [dropPiiColumns]
  rw [List.mem_filter]
  constructor
  · rintro ⟨hmem, hk⟩
    refine ⟨hmem, ?_⟩
    rw [Bool.not_eq_true'] at hk
    cases hkp : keepPii s with
    | true =>
        have hcc := (contains_filter_keep df s).mpr ⟨hmem, hkp⟩
        rw [hcc] at hk
        exact Bool.noConfusion hk
    | false => rfl
  · rintro ⟨hmem, hk⟩
    refine ⟨hmem, ?_⟩
    rw [Bool.not_eq_true']
    cases hcv : ((df.map (·.name)).filter keepPii).contains s with
    | false => rfl
    | true =>
        have hmk := (contains_filter_keep df s).mp hcv
        rw [hk] at hmk
        exact absurd hmk.2 (by simp)

theorem keepPii_iff (s : String) :
    keepPii s = true ↔ ∀ k ∈ piiCols, subIn k.toList (lowerName s) = false := by
  unfold keepPii
  rw [List.all_eq_true]
  constructor
  · intro h k hk
    have := h k hk
    rwa [Bool.not_eq_eq_eq_not, Bool.not_true] at this
  · intro h k hk
    rw [Bool.not_eq_eq_eq_not, Bool.not_true]
    exact h k hk

theorem keepPii_false_iff (s : String) :
    keepPii s = false ↔ ∃ k ∈ piiCols, subIn k.toList (lowerName s) = true := by
  rw [← Bool.not_eq_true, keepPii_iff]
  push_neg
  simp only [ne_eq, Bool.not_eq_false]

theorem claimPii_sub : ∀ k ∈ claimPiiSet, k ∈ piiCols := by decide

theorem dropPii_fst_eq (df : DataFrame) :
    (dropPiiColumns df).1 =
      dedupeColumns ((df.filter (fun col => keepPii col.name)).map
        (fun col => if col.obj then { col with vals := col.vals.map scrubTextPii }
          else col)) := rfl

theorem scrub_map_names (l : DataFrame) :
    ((l.map (fun col =>
        if col.obj then { col with vals := col.vals.map scrubTextPii }
        else col)).map (·.name)) = l.map (·.name) := by
  induction l with
  | nil => rfl
  | cons c rest ih => simp only [List.map_cons, ih, scrubColName]

theorem sanitize_names_nodup (df : DataFrame) :
    ((sanitize df).map (·.name)).Nodup := by
  unfold sanitize stripPolicyBanned
  have hnd : (((dropPiiColumns df).1).map (·.name)).Nodup := by
    rw [dropPii_fst_eq]
    exact dedupe_names_nodup _
  have hsub : List.Sublist
      (((dropPiiColumns df).1.filter
        (fun col => !bannedNames.contains (lowerName col.name))).map (·.name))
      (((dropPiiColumns df).1).map (·.name)) :=
    List.Sublist.map _ (List.filter_sublist _)
  exact hnd.sublist hsub

/-- C5: after sanitization no surviving column name contains a PII token or
equals a policy-banned name, and the PII pass reports exactly the names it
dropped (those whose lowercased form contains a `PII_COLS` member). -/
theorem sanitizer_completeness (df : DataFrame) :
    (∀ c ∈ sanitize df,
      (∀ k ∈ claimPiiSet, subIn k.toList (lowerName c.name) = false) ∧
      bannedNames.contains (lowerName c.name) = false) ∧
    ∀ s : String, s ∈ (dropPiiColumns df).2 ↔
      s ∈ df.map (·.name) ∧ ∃ k ∈ piiCols, subIn k.toList (lowerName s) = true := by
  constructor
  · intro c hc
    obtain ⟨hk, hb⟩ := mem_sanitize hc
    exact ⟨fun k hkc => (keepPii_iff _).mp hk k (claimPii_sub k hkc), hb⟩
  · intro s
    rw [dropPii_dropped_iff df s]
    exact and_congr_right fun _ => keepPii_false_iff s

/-- C1 (amended): applying the sanitizer to its own output drops no further
columns: the second PII pass reports an empty dropped list and the column
names are unchanged.  (Value-level scrubbing is not idempotent, see the
counterexample.) -/
theorem sanitize_column_idempotent (df : DataFrame) :
    (dropPiiColumns (sanitize df)).2 = [] ∧
    (sanitize (sanitize df)).map (·.name) = (sanitize df).map (·.name) := by
  have hkeep : ∀ c ∈ sanitize df, keepPii c.name = true :=
    fun c hc => (mem_sanitize hc).1
  have hban : ∀ c ∈ sanitize df, bannedNames.contains (lowerName c.name) = false :=
    fun c hc => (mem_sanitize hc).2
  have h1 : (sanitize df).filter (fun col => keepPii col.name) = sanitize df :=
    List.filter_eq_self.mpr hkeep
  have h2 := scrub_map_names (sanitize df)
  have h3 : dedupeColumns ((sanitize df).map (fun col =>
      if col.obj then { col with vals := col.vals.map scrubTextPii }
      else col)) = (sanitize df).map (fun col =>
      if col.obj then { col with vals := col.vals.map scrubTextPii }
      else col) :=
    dedupe_eq_self (by rw [h2]; exact sanitize_names_nodup df)
  have h4 : (dropPiiColumns (sanitize df)).1 = (sanitize df).map (fun col =>
      if col.obj then { col with vals := col.vals.map scrubTextPii }
      else col) := by
    rw [dropPii_fst_eq, h1, h3]
  constructor
  · rw [List.eq_nil_iff_forall_not_mem]
    intro s hs
    rw [dropPii_dropped_iff] at hs
    obtain ⟨hmem, hkf⟩ := hs
    rw [List.mem_map] at hmem
    obtain ⟨c, hc, rfl⟩ := hmem
    rw [hkeep c hc] at hkf
    exact Bool.noConfusion hkf
  · have h5 : stripPolicyBanned ((sanitize df).map (fun col =>
        if col.obj then { col with vals := col.vals.map scrubTextPii }
        else col)) = (sanitize df).map (fun col =>
        if col.obj then { col with vals := col.vals.map scrubTextPii }
        else col) := by
      apply List.filter_eq_self.mpr
      intro c hc
      rw [List.mem_map] at hc
      obtain ⟨b, hb, rfl⟩ := hc
      have : (if b.obj then { b with vals := b.vals.map scrubTextPii }
          else b).name = b.name := scrubColName b
      rw [this, hban b hb]
      rfl
    show (stripPolicyBanned (dropPiiColumns (sanitize df)).1).map (·.name) = _
    rw [h4, h5, h2]

/-- C1 (counterexample): full idempotence fails — on a retained text column
the phone substitution can splice a new email address which only a second
sanitization scrubs. -/
theorem sanitize_not_idempotent_cex :
    sanitize (sanitize idemCexDf) ≠ sanitize idemCexDf := by decide

/-- C10: appending the session user columns to a frame free of them changes
no existing column and appends exactly the four session columns; and after
the sanitize flow (PII drop, then user-info append) the two session identity
columns are ones a further PII pass drops. -/
theorem append_user_info_frame (df df0 : DataFrame) (uname uemail : Str)
    (flagged : Bool) (ts : Str)
    (hnodup : (df.map (·.name)).Nodup)
    (habs : ∀ s ∈ (["session_user_name", "session_user_email",
      "session_flagged", "created_at"] : List String), s ∉ df.map (·.name)) :
    appendFrameOk df df0 uname uemail flagged ts := by
  refine ⟨?_, ?_, ?_⟩
  · unfold appendUserInfo
    apply dedupe_eq_self
    rw [List.map_append]
    refine List.Nodup.append hnodup
      (by simp only [sessionCols, List.map_cons, List.map_nil]; decide) ?_
    intro a ha1 ha2
    have ha2' : a ∈ (["session_user_name", "session_user_email",
        "session_flagged", "created_at"] : List String) := by
      simpa [sessionCols] using ha2
    exact habs a ha2' ha1
  · refine (dropPii_dropped_iff _ _).mpr ⟨?_, by decide⟩
    unfold appendUserInfo
    rw [names_mem_dedupe, List.map_append]
    exact List.mem_append_right _ (by simp [sessionCols])
  · refine (dropPii_dropped_iff _ _).mpr ⟨?_, by decide⟩
    unfold appendUserInfo
    rw [names_mem_dedupe, List.map_append]
    exact List.mem_append_right _ (by simp [sessionCols])

/-- C10 (witness): the frame properties at a concrete one-column frame and
concrete session metadata. -/
theorem append_user_info_frame_witness :
    appendFrameOk userSampleDf [] ("u".toList) ("e".toList) false ("t".toList) :=
  append_user_info_frame userSampleDf [] ("u".toList) ("e".toList) false
    ("t".toList) (by decide) (by decide)

/-- C2: reproducibility fails for the PII-bearing generator — the customer
name, email and address columns are drawn from the ambient, unseeded global
numpy state, so two runs that differ only in that global state produce
different record sets for the same `(n, non_bank_ratio)` pair. -/
theorem generate_raw_not_reproducible :
    generateRawSynthetic zeroPcg zeroStream 1 0 1 ("USD".toList) ≠
      generateRawSynthetic zeroPcg oneStream 1 0 1 ("USD".toList) := by
  intro h
  have h2 : (generateRawSynthetic zeroPcg zeroStream 1 0 1 ("USD".toList))[1]? =
      (generateRawSynthetic zeroPcg oneStream 1 0 1 ("USD".toList))[1]? :=
    congrArg (fun l => l[1]?) h
  rw [show (generateRawSynthetic zeroPcg zeroStream 1 0 1 ("USD".toList))[1]? =
      some ⟨"customer_name", true, [Val.str ("Alice Nguyen".toList)]⟩ from rfl,
    show (generateRawSynthetic zeroPcg oneStream 1 0 1 ("USD".toList))[1]? =
      some ⟨"customer_name", true, [Val.str ("Bao Tran".toList)]⟩ from rfl] at h2
  exact absurd (Option.some.inj h2) (by decide)

theorem rawCols_names (pcg : Nat → Nat → Nat) (g : Nat → Nat) (n : Nat)
    (ratio fx : ℚ) (ccode : Str) :
    (rawCols pcg g n ratio fx ccode).map (·.name) =
      ["application_id", "customer_name", "email", "phone", "address",
       "national_id", "age", "income", "employment_length", "loan_amount",
       "loan_duration_months", "collateral_value", "collateral_type",
       "co_loaners", "credit_score", "existing_debt", "assets_owned",
       "current_loans", "customer_type", "DTI", "LTV", "CCR", "ITI", "CWI",
       "currency_code"] := rfl

theorem anonCols_names (pcg : Nat → Nat → Nat) (g : Nat → Nat) (n : Nat)
    (ratio fx : ℚ) (ccode : Str) :
    (anonCols pcg g n ratio fx ccode).map (·.name) =
      ["application_id", "age", "income", "employment_length", "loan_amount",
       "loan_duration_months", "collateral_value", "collateral_type",
       "co_loaners", "credit_score", "existing_debt", "assets_owned",
       "current_loans", "customer_type", "DTI", "LTV", "CCR", "ITI", "CWI",
       "currency_code"] := rfl

theorem generateRaw_eq (pcg : Nat → Nat → Nat) (g : Nat → Nat) (n : Nat)
    (ratio fx : ℚ) (ccode : Str) :
    generateRawSynthetic pcg g n ratio fx ccode = rawCols pcg g n ratio fx ccode :=
  dedupe_eq_self (by rw [rawCols_names]; decide)

theorem generateAnon_eq (pcg : Nat → Nat → Nat) (g : Nat → Nat) (n : Nat)
    (ratio fx : ℚ) (ccode : Str) :
    generateAnonSynthetic pcg g n ratio fx ccode = anonCols pcg g n ratio fx ccode :=
  dedupe_eq_self (by rw [anonCols_names]; decide)

theorem metricCols_rawCols (pcg : Nat → Nat → Nat) (g : Nat → Nat) (n : Nat)
    (ratio fx : ℚ) (ccode : Str) :
    metricCols (rawCols pcg g n ratio fx ccode) = rawMetricCols pcg n := rfl

theorem metricCols_anonCols (pcg : Nat → Nat → Nat) (g : Nat → Nat) (n : Nat)
    (ratio fx : ℚ) (ccode : Str) :
    metricCols (anonCols pcg g n ratio fx ccode) = anonMetricCols pcg n := rfl

/-- C9: the five derived metric columns are computed from the unscaled base
draws, so they are identical for any two currency multipliers, in both
generator variants. -/
theorem metrics_currency_invariant (pcg : Nat → Nat → Nat) (g : Nat → Nat)
    (n : Nat) (ratio fx1 fx2 : ℚ) (ccode : Str) :
    metricCols (generateRawSynthetic pcg g n ratio fx1 ccode) =
      metricCols (generateRawSynthetic pcg g n ratio fx2 ccode) ∧
    metricCols (generateAnonSynthetic pcg g n ratio fx1 ccode) =
      metricCols (generateAnonSynthetic pcg g n ratio fx2 ccode) := by
  rw [generateRaw_eq, generateRaw_eq, generateAnon_eq, generateAnon_eq,
    metricCols_rawCols, metricCols_rawCols, metricCols_anonCols,
    metricCols_anonCols]
  exact ⟨rfl, rfl⟩

theorem getVals_rawCols_DTI (pcg : Nat → Nat → Nat) (g : Nat → Nat) (n : Nat)
    (ratio fx : ℚ) (ccode : Str) :
    getVals (rawCols pcg g n ratio fx ccode) "DTI" =
      (List.range n).map (fun i => Val.num (rawDTI pcg n i)) := rfl

theorem getVals_rawCols_LTV (pcg : Nat → Nat → Nat) (g : Nat → Nat) (n : Nat)
    (ratio fx : ℚ) (ccode : Str) :
    getVals (rawCols pcg g n ratio fx ccode) "LTV" =
      (List.range n).map (fun i => Val.num (rawLTV pcg n i)) := rfl

theorem getVals_rawCols_CCR (pcg : Nat → Nat → Nat) (g : Nat → Nat) (n : Nat)
    (ratio fx : ℚ) (ccode : Str) :
    getVals (rawCols pcg g n ratio fx ccode) "CCR" =
      (List.range n).map (fun i => Val.num (rawCCR pcg n i)) := rfl

theorem getVals_rawCols_ITI (pcg : Nat → Nat → Nat) (g : Nat → Nat) (n : Nat)
    (ratio fx : ℚ) (ccode : Str) :
    getVals (rawCols pcg g n ratio fx ccode) "ITI" =
      (List.range n).map (fun i => Val.num (rawITI pcg n i)) := rfl

theorem getVals_rawCols_CWI (pcg : Nat → Nat → Nat) (g : Nat → Nat) (n : Nat)
    (ratio fx : ℚ) (ccode : Str) :
    getVals (rawCols pcg g n ratio fx ccode) "CWI" =
      (List.range n).map (fun i => Val.num (rawCWI pcg n i)) := rfl

theorem getVals_anonCols_DTI (pcg : Nat → Nat → Nat) (g : Nat → Nat) (n : Nat)
    (ratio fx : ℚ) (ccode : Str) :
    getVals (anonCols pcg g n ratio fx ccode) "DTI" =
      (List.range n).map (fun i => Val.num (anonDTI pcg n i)) := rfl

theorem getVals_anonCols_LTV (pcg : Nat → Nat → Nat) (g : Nat → Nat) (n : Nat)
    (ratio fx : ℚ) (ccode : Str) :
    getVals (anonCols pcg g n ratio fx ccode) "LTV" =
      (List.range n).map (fun i => Val.num (anonLTV pcg n i)) := rfl

theorem getVals_anonCols_CCR (pcg : Nat → Nat → Nat) (g : Nat → Nat) (n : Nat)
    (ratio fx : ℚ) (ccode : Str) :
    getVals (anonCols pcg g n ratio fx ccode) "CCR" =
      (List.range n).map (fun i => Val.num (anonCCR pcg n i)) := rfl

theorem getVals_anonCols_ITI (pcg : Nat → Nat → Nat) (g : Nat → Nat) (n : Nat)
    (ratio fx : ℚ) (ccode : Str) :
    getVals (anonCols pcg g n ratio fx ccode) "ITI" =
      (List.range n).map (fun i => Val.num (anonITI pcg n i)) := rfl

theorem getVals_anonCols_CWI (pcg : Nat → Nat → Nat) (g : Nat → Nat) (n : Nat)
    (ratio fx : ℚ) (ccode : Str) :
    getVals (anonCols pcg g n ratio fx ccode) "CWI" =
      (List.range n).map (fun i => Val.num (anonCWI pcg n i)) := rfl

theorem eps_pos : 0 < eps := by norm_num [eps]

theorem add_eps_pos (x : ℚ) (hx : 0 ≤ x) : 0 < x + eps := by
  have := eps_pos
  linarith

theorem clip01_nonneg (x : ℚ) : 0 ≤ clip01 x := le_max_left 0 _

theorem clip01_le_one (x : ℚ) : clip01 x ≤ 1 :=
  max_le (by norm_num) (min_le_left _ _)

theorem clip03_nonneg (x : ℚ) : 0 ≤ clip03 x := le_max_left 0 _

theorem clip03_le_three (x : ℚ) : clip03 x ≤ 3 :=
  max_le (by norm_num) (min_le_left _ _)

theorem clipProd_nonneg (a b c : ℚ) : 0 ≤ clip01 a * clip01 b * clip03 c :=
  mul_nonneg (mul_nonneg (clip01_nonneg a) (clip01_nonneg b)) (clip03_nonneg c)

theorem clipProd_le_three (a b c : ℚ) : clip01 a * clip01 b * clip03 c ≤ 3 := by
  have h1 : clip01 a * clip01 b ≤ 1 :=
    mul_le_one₀ (clip01_le_one a) (clip01_nonneg b) (clip01_le_one b)
  have h2 : clip01 a * clip01 b * clip03 c ≤ 1 * 3 :=
    mul_le_mul h1 (clip03_le_three c) (clip03_nonneg c) (by norm_num)
  linarith

theorem chooseNum_mem_or (l : List ℚ) (d : Nat) :
    chooseNum l d ∈ l ∨ chooseNum l d = 0 := by
  unfold chooseNum
  rw [List.getD_eq_getElem?_getD]
  rcases h : l[d % l.length]? with _ | q
  · right
    rfl
  · left
    obtain ⟨hlt, rfl⟩ := List.getElem?_eq_some.mp h
    exact List.getElem_mem hlt

theorem rawLoanDuration_nonneg (pcg : Nat → Nat → Nat) (n i : Nat) :
    0 ≤ rawLoanDuration pcg n i := by
  unfold rawLoanDuration
  rcases chooseNum_mem_or loanTermsPool (pcg 42 (6 * n + i)) with h | h
  · have hall : ∀ q ∈ loanTermsPool, (0 : ℚ) ≤ q := by
      intro q hq
      fin_cases hq <;> norm_num
    exact hall _ h
  · rw [h]

theorem anonLoanDuration_nonneg (pcg : Nat → Nat → Nat) (n i : Nat) :
    0 ≤ anonLoanDuration pcg n i := by
  unfold anonLoanDuration
  rcases chooseNum_mem_or loanTermsPool (pcg 42 (5 * n + i)) with h | h
  · have hall : ∀ q ∈ loanTermsPool, (0 : ℚ) ≤ q := by
      intro q hq
      fin_cases hq <;> norm_num
    exact hall _ h
  · rw [h]

/-- C3: every generated record of both variants has nonnegative DTI, LTV and
ITI, a CWI within 0..3, and strictly positive epsilon-guarded denominators,
and the metric columns of the generated frames hold exactly these values. -/
theorem derived_metrics_bounds (pcg : Nat → Nat → Nat) (g : Nat → Nat)
    (n : Nat) (ratio fx : ℚ) (ccode : Str) (i : Nat) (hi : i < n) :
    metricsRowOk pcg g n ratio fx ccode i := by
  unfold metricsRowOk
  rw [generateRaw_eq, generateAnon_eq, getVals_rawCols_DTI, getVals_rawCols_LTV,
    getVals_rawCols_CCR, getVals_rawCols_ITI, getVals_rawCols_CWI,
    getVals_anonCols_DTI, getVals_anonCols_LTV, getVals_anonCols_CCR,
    getVals_anonCols_ITI, getVals_anonCols_CWI]
  refine ⟨?_, ?_, ?_, ?_, ?_, ?_⟩
  · refine ⟨?_, ?_, ?_, ?_, ?_⟩ <;>
      simp [List.getElem?_map, List.getElem?_range, hi]
  · refine ⟨?_, ?_, ?_, ?_, ?_⟩ <;>
      simp [List.getElem?_map, List.getElem?_range, hi]
  · refine ⟨?_, ?_, ?_, ?_, ?_⟩
    · exact div_nonneg (Nat.cast_nonneg _)
        (le_of_lt (add_eps_pos _ (Nat.cast_nonneg _)))
    · exact div_nonneg (Nat.cast_nonneg _)
        (le_of_lt (add_eps_pos _ (Nat.cast_nonneg _)))
    · exact div_nonneg
        (div_nonneg (Nat.cast_nonneg _)
          (le_of_lt (add_eps_pos _ (rawLoanDuration_nonneg pcg n i))))
        (le_of_lt (add_eps_pos _ (Nat.cast_nonneg _)))
    · exact clipProd_nonneg _ _ _
    · exact clipProd_le_three _ _ _
  · refine ⟨?_, ?_, ?_, ?_, ?_⟩
    · exact div_nonneg (Nat.cast_nonneg _)
        (le_of_lt (add_eps_pos _ (Nat.cast_nonneg _)))
    · exact div_nonneg (Nat.cast_nonneg _)
        (le_of_lt (add_eps_pos _ (Nat.cast_nonneg _)))
    · exact div_nonneg
        (div_nonneg (Nat.cast_nonneg _)
          (le_of_lt (add_eps_pos _ (anonLoanDuration_nonneg pcg n i))))
        (le_of_lt (add_eps_pos _ (Nat.cast_nonneg _)))
    · exact clipProd_nonneg _ _ _
    · exact clipProd_le_three _ _ _
  · exact ⟨add_eps_pos _ (Nat.cast_nonneg _), add_eps_pos _ (Nat.cast_nonneg _),
      add_eps_pos _ (Nat.cast_nonneg _),
      add_eps_pos _ (rawLoanDuration_nonneg pcg n i)⟩
  · exact ⟨add_eps_pos _ (Nat.cast_nonneg _), add_eps_pos _ (Nat.cast_nonneg _),
      add_eps_pos _ (Nat.cast_nonneg _),
      add_eps_pos _ (anonLoanDuration_nonneg pcg n i)⟩

/-- C3 (witness): the metric guarantees at a concrete generation call. -/
theorem derived_metrics_bounds_witness :
    metricsRowOk zeroPcg zeroStream 1 0 1 ("USD".toList) 0 :=
  derived_metrics_bounds zeroPcg zeroStream 1 0 1 ("USD".toList) 0 (by decide)

/-- C8: in the fixed-threshold decision mode of either policy kind, raising
the threshold never increases the number of approved records of a batch. -/
theorem fixed_threshold_monotone (pol : RulePolicy) (batch : List NormRecord)
    (t1 t2 : ℚ) (h : t1 ≤ t2) :
    approvalCount pol t2 batch ≤ approvalCount pol t1 batch := by
  unfold approvalCount
  induction batch with
  | nil => exact Nat.le_refl _
  | cons r rest ih =>
      rw [List.countP_cons, List.countP_cons]
      refine Nat.add_le_add ih ?_
      cases h2 : approvedFixed pol t2 r with
      | false => simp
      | true =>
          have hs2 : t2 ≤ scoreOf pol r := by
            have := h2
            unfold approvedFixed at this
            exact of_decide_eq_true this
          have hs1 : approvedFixed pol t1 r = true := by
            unfold approvedFixed
            exact decide_eq_true (le_trans h hs2)
          rw [hs1]

/-- C8 (witness): the monotonicity applied to a concrete batch and a
concrete pair of thresholds. -/
theorem fixed_threshold_monotone_witness :
    approvalCount samplePolicy 1 sampleBatch ≤
      approvalCount samplePolicy 0 sampleBatch :=
  fixed_threshold_monotone samplePolicy sampleBatch 0 1 (by norm_num)

theorem mem_of_getLast?_eq {α : Type} {l : List α} {a : α}
    (h : l.getLast? = some a) : a ∈ l := by
  obtain ⟨hne, rfl⟩ := List.mem_getLast?_eq_getLast h
  exact List.getLast_mem hne

theorem emailMatch_sound {cs m r : Str} (h : emailMatch cs = some (m, r)) :
    cs = m ++ r ∧ m ≠ [] ∧ EmailPat m := by
  simp only [emailMatch] at h
  split at h
  case _ r2 heq =>
    split at h
    case _ hlp => exact absurd h (by simp)
    case _ hlp =>
      split at h
      case _ j hbs =>
        rw [Option.some.injEq, Prod.mk.injEq] at h
        obtain ⟨hm, hr⟩ := h
        subst hm
        subst hr
        unfold bestEmailSplit at hbs
        have hjm := mem_of_getLast?_eq hbs
        rw [List.mem_filter, List.mem_range] at hjm
        obtain ⟨hjlt, hjv⟩ := hjm
        unfold validEmailSplit at hjv
        rw [Bool.and_eq_true, Bool.and_eq_true] at hjv
        obtain ⟨⟨hj1, hjdot⟩, hjtld⟩ := hjv
        rw [decide_eq_true_eq] at hj1
        rw [decide_eq_true_eq] at hjdot
        rw [decide_eq_true_eq] at hjtld
        set lp := cs.takeWhile isLocalChar with hlp_def
        set dr := r2.takeWhile isDomainChar with hdr_def
        set r3 := r2.dropWhile isDomainChar with hr3_def
        set dtake := dr.take j with hdtake_def
        set ddrop := dr.drop (j+1) with hddrop_def
        set tld := ddrop.takeWhile isReAlpha with htld_def
        set dtail := ddrop.dropWhile isReAlpha with hdtail_def
        have hcs : cs = lp ++ '@' :: r2 := by
          conv_lhs => rw [← List.takeWhile_append_dropWhile (p := isLocalChar) (l := cs)]
          rw [heq, hlp_def]
        have hr2 : r2 = dr ++ r3 := by
          rw [hdr_def, hr3_def, List.takeWhile_append_dropWhile]
        have hdrj : dr.drop j = '.' :: ddrop := by
          obtain ⟨hlt, hget⟩ := List.getElem?_eq_some.mp hjdot
          rw [List.drop_eq_getElem_cons hlt, hget, hddrop_def]
        have hdreq : dr = dtake ++ '.' :: ddrop := by
          conv_lhs => rw [← List.take_append_drop j dr]
          rw [hdrj, hdtake_def]
        have hdsplit : ddrop = tld ++ dtail := by
          rw [htld_def, hdtail_def, List.takeWhile_append_dropWhile]
        refine ⟨?_, ?_, ?_⟩
        · rw [hcs, hr2, hdreq, hdsplit]
          simp [List.append_assoc]
        · simp
        · refine ⟨lp, dtake, tld, rfl, ?_, ?_, ?_, ?_, hjtld, ?_⟩
          · rw [List.isEmpty_iff] at hlp
            exact hlp
          · intro c hc
            rw [hlp_def] at hc
            exact List.mem_takeWhile_imp hc
          · have hpos : 0 < dtake.length := by
              rw [hdtake_def, List.length_take]
              omega
            exact List.length_pos.mp hpos
          · intro c hc
            rw [hdtake_def] at hc
            have hcdr : c ∈ dr := List.mem_of_mem_take hc
            rw [hdr_def] at hcdr
            exact List.mem_takeWhile_imp hcdr
          · intro c hc
            rw [htld_def] at hc
            exact List.mem_takeWhile_imp hc
      case _ => exact absurd h (by simp)
  case _ => exact absurd h (by simp)

theorem phoneCore_sound {cs m r : Str} (h : phoneCore cs = some (m, r)) :
    cs = m ++ r ∧ m ≠ [] ∧ PhonePatCore m := by
  cases cs with
  | nil => exact absurd h (by simp [phoneCore])
  | cons c rest =>
      simp only [phoneCore] at h
      split at h
      case _ hd =>
        split at h
        case _ j hbs =>
          rw [Option.some.injEq, Prod.mk.injEq] at h
          obtain ⟨hm, hr⟩ := h
          subst hm
          subst hr
          unfold bestPhoneSplit at hbs
          have hjm := mem_of_getLast?_eq hbs
          rw [List.mem_filter, List.mem_range] at hjm
          obtain ⟨hjlt, hjv⟩ := hjm
          unfold validPhoneSplit at hjv
          rw [Bool.and_eq_true] at hjv
          obtain ⟨hj6, hjd⟩ := hjv
          rw [decide_eq_true_eq] at hj6
          set mid := rest.takeWhile isPhoneMid with hmid_def
          set r2 := rest.dropWhile isPhoneMid with hr2_def
          obtain ⟨d1, hget, hd1⟩ :
              ∃ d1, mid[j]? = some d1 ∧ isReDigit d1 = true := by
            rcases hg : mid[j]? with _ | d1
            · rw [hg] at hjd
              exact absurd hjd (by simp)
            · rw [hg] at hjd
              exact ⟨d1, rfl, hjd⟩
          have hrest : rest = mid ++ r2 := by
            rw [hmid_def, hr2_def, List.takeWhile_append_dropWhile]
          have htake : mid.take (j+1) = mid.take j ++ [d1] := by
            rw [List.take_succ, hget]
            rfl
          refine ⟨?_, ?_, ?_⟩
          · rw [hrest]
            simp only [List.cons_append, ← List.append_assoc]
            rw [List.take_append_drop]
          · simp
          · refine ⟨c, mid.take j, d1, ?_, hd, hd1, ?_, ?_⟩
            · rw [htake]
            · have hjlen : j ≤ mid.length := le_of_lt hjlt
              rw [List.length_take]
              omega
            · intro x hx
              have hxm : x ∈ mid := List.mem_of_mem_take hx
              rw [hmid_def] at hxm
              exact List.mem_takeWhile_imp hxm
        case _ => exact absurd h (by simp)
      case _ => exact absurd h (by simp)

theorem phonePatCore_pat {w : Str} (h : PhonePatCore w) : PhonePat w := by
  obtain ⟨d0, mid, d1, hw, h0, h1, h6, hmem⟩ := h
  exact ⟨[], d0, mid, d1, by rw [hw]; rfl, Or.inl rfl, h0, h1, h6, hmem⟩

theorem phonePatCore_plus {w : Str} (h : PhonePatCore w) : PhonePat ('+' :: w) := by
  obtain ⟨d0, mid, d1, hw, h0, h1, h6, hmem⟩ := h
  exact ⟨['+'], d0, mid, d1, by rw [hw]; rfl, Or.inr rfl, h0, h1, h6, hmem⟩

theorem phoneMatch_sound {cs m r : Str} (h : phoneMatch cs = some (m, r)) :
    cs = m ++ r ∧ m ≠ [] ∧ PhonePat m := by
  unfold phoneMatch at h
  split at h
  case _ rest =>
    rw [Option.map_eq_some'] at h
    obtain ⟨pr, hpr, hmr⟩ := h
    obtain ⟨heq, hne, hpat⟩ := phoneCore_sound (by rw [hpr] : phoneCore rest = some (pr.1, pr.2))
    rw [Prod.mk.injEq] at hmr
    obtain ⟨hm, hr⟩ := hmr
    subst hm
    subst hr
    refine ⟨?_, by simp, phonePatCore_plus hpat⟩
    rw [heq]
    rfl
  case _ h1 =>
    obtain ⟨heq, hne, hpat⟩ := phoneCore_sound h
    exact ⟨heq, hne, phonePatCore_pat hpat⟩

theorem scanSub_decomp {P : Str → Prop} (m : Str → Option (Str × Str))
    (hm : ∀ cs chunk rest, m cs = some (chunk, rest) →
      cs = chunk ++ rest ∧ chunk ≠ [] ∧ P chunk) :
    ∀ fuel cs, cs.length ≤ fuel → SubScrub P cs (scanSub m fuel cs) := by
  intro fuel
  induction fuel with
  | zero =>
      intro cs hcs
      have hnil : cs = [] := List.length_eq_zero.mp (Nat.le_zero.mp hcs)
      subst hnil
      exact SubScrub.nil
  | succ f ih =>
      intro cs hcs
      cases cs with
      | nil => exact SubScrub.nil
      | cons c rest =>
          rw [scanSub]
          cases hmc : m (c :: rest) with
          | none =>
              exact SubScrub.keep c (ih rest (by
                rw [List.length_cons] at hcs
                omega))
          | some pr =>
              obtain ⟨hcseq, hne, hp⟩ := hm _ _ _ (by rw [hmc])
              have hlen : pr.2.length ≤ f := by
                have h1 : (c :: rest).length = pr.1.length + pr.2.length := by
                  rw [hcseq, List.length_append]
                have h2 : 1 ≤ pr.1.length :=
                  List.length_pos.mpr hne
                rw [List.length_cons] at h1 hcs
                omega
              rw [hcseq]
              exact SubScrub.rem pr.1 hp hne (ih pr.2 hlen)

theorem numericCol_getVals {df : DataFrame} {s : String}
    (h : numericCol df s = true) : ∀ v ∈ getVals df s, isNumCell v = true := by
  unfold numericCol at h
  rw [List.all_eq_true] at h
  exact h

theorem asFloatCast_of_numCell {v : Val} (h : isNumCell v = true) :
    asFloatCast v = some (numOf v) := by
  cases v with
  | num q => rfl
  | bool b => rfl
  | str s => exact absurd h (by simp [isNumCell])

theorem asNum_of_numCell {v : Val} (h : isNumCell v = true) :
    asNum v = some (numOf v) := by
  cases v with
  | num q => rfl
  | bool b => rfl
  | str s => exact absurd h (by simp [isNumCell])

theorem mapM_asFloatCast {l : List Val} (h : ∀ v ∈ l, isNumCell v = true) :
    l.mapM asFloatCast = some (l.map numOf) := by
  induction l with
  | nil => rfl
  | cons v rest ih =>
      rw [List.mapM_cons, asFloatCast_of_numCell (h v (List.mem_cons_self v rest)),
        ih (fun w hw => h w (List.mem_cons_of_mem v hw))]
      rfl

theorem mapM_dtiList {l : List (Val × Val)}
    (h : ∀ p ∈ l, isNumCell p.1 = true ∧ isNumCell p.2 = true) :
    l.mapM (fun (p : Val × Val) => do
        let a ← asNum p.1
        let b ← asNum p.2
        pure (Val.num (dtiRowVal a b))) =
      some (l.map (fun p => Val.num (dtiRowVal (numOf p.1) (numOf p.2)))) := by
  induction l with
  | nil => rfl
  | cons v rest ih =>
      obtain ⟨h1, h2⟩ := h v (List.mem_cons_self v rest)
      rw [List.mapM_cons]
      simp only [asNum_of_numCell h1, asNum_of_numCell h2,
        ih (fun w hw => h w (List.mem_cons_of_mem v hw))]
      rfl

theorem schemaAdd2_of_numeric {df : DataFrame}
    (h : dtiOperandsNumeric df = true) :
    schemaAdd2 df = some (schemaAdd2Num df) := by
  unfold dtiOperandsNumeric at h
  rw [Bool.and_eq_true, Bool.and_eq_true] at h
  obtain ⟨⟨hDTI, hed⟩, hinc⟩ := h
  unfold schemaAdd2 schemaAdd2Num
  split_ifs with h1 h2 h3
  · rfl
  · rw [mapM_asFloatCast (numericCol_getVals hDTI)]
    simp [List.map_map, Function.comp]
  · rw [mapM_dtiList (fun p hp =>
      ⟨numericCol_getVals hed p.1 (List.of_mem_zip hp).1,
       numericCol_getVals hinc p.2 (List.of_mem_zip hp).2⟩)]
    rfl
  · rfl

theorem toAgentSchema_of_numeric (pcg : Nat → Nat → Nat) {df : DataFrame}
    (h : dtiOperandsNumeric df = true) :
    toAgentSchema pcg df = some (dedupeColumns (df ++ schemaAdd1 df ++
      schemaAdd2Num df ++ schemaAdd3 pcg df ++ schemaAdd4 pcg df ++
      schemaAdd5 df ++ schemaAdd6 df)) := by
  unfold toAgentSchema
  rw [schemaAdd2_of_numeric h]

theorem schemaAdd1_names {df : DataFrame} :
    ∀ c ∈ schemaAdd1 df, c.name = "employment_years" := by
  intro c hc
  unfold schemaAdd1 at hc
  split at hc
  · exact absurd hc (by simp)
  · rw [List.mem_singleton] at hc
    subst hc
    rfl

theorem schemaAdd2Num_names {df : DataFrame} :
    ∀ c ∈ schemaAdd2Num df, c.name = "debt_to_income" := by
  intro c hc
  unfold schemaAdd2Num at hc
  split_ifs at hc
  · exact absurd hc (by simp)
  all_goals
    rw [List.mem_singleton] at hc
    subst hc
    rfl

theorem schemaAdd3_names {pcg : Nat → Nat → Nat} {df : DataFrame} :
    ∀ c ∈ schemaAdd3 pcg df, c.name = "credit_history_length" := by
  intro c hc
  unfold schemaAdd3 at hc
  split at hc
  · exact absurd hc (by simp)
  · rw [List.mem_singleton] at hc
    subst hc
    rfl

theorem schemaAdd4_names {pcg : Nat → Nat → Nat} {df : DataFrame} :
    ∀ c ∈ schemaAdd4 pcg df, c.name = "num_delinquencies" := by
  intro c hc
  unfold schemaAdd4 at hc
  split at hc
  · exact absurd hc (by simp)
  · rw [List.mem_singleton] at hc
    subst hc
    rfl

theorem schemaAdd5_names {df : DataFrame} :
    ∀ c ∈ schemaAdd5 df, c.name = "requested_amount" := by
  intro c hc
  unfold schemaAdd5 at hc
  split at hc
  · exact absurd hc (by simp)
  · rw [List.mem_singleton] at hc
    subst hc
    rfl

theorem schemaAdd6_names {df : DataFrame} :
    ∀ c ∈ schemaAdd6 df, c.name = "loan_term_months" := by
  intro c hc
  unfold schemaAdd6 at hc
  split at hc
  · exact absurd hc (by simp)
  · rw [List.mem_singleton] at hc
    subst hc
    rfl

theorem schemaAdd1_has {df : DataFrame}
    (h : hasCol df "employment_years" = false) :
    ∃ c ∈ schemaAdd1 df, c.name = "employment_years" := by
  unfold schemaAdd1
  rw [h]
  simp only [Bool.false_eq_true, if_false]
  exact ⟨_, List.mem_singleton_self _, rfl⟩

theorem schemaAdd2Num_has {df : DataFrame}
    (h : hasCol df "debt_to_income" = false) :
    ∃ c ∈ schemaAdd2Num df, c.name = "debt_to_income" := by
  unfold schemaAdd2Num
  rw [h]
  simp only [Bool.false_eq_true, if_false]
  split_ifs
  · exact ⟨_, List.mem_singleton_self _, rfl⟩
  · exact ⟨_, List.mem_singleton_self _, rfl⟩
  · exact ⟨_, List.mem_singleton_self _, rfl⟩

theorem schemaAdd3_has {pcg : Nat → Nat → Nat} {df : DataFrame}
    (h : hasCol df "credit_history_length" = false) :
    ∃ c ∈ schemaAdd3 pcg df, c.name = "credit_history_length" := by
  unfold schemaAdd3
  rw [h]
  simp only [Bool.false_eq_true, if_false]
  exact ⟨_, List.mem_singleton_self _, rfl⟩

theorem schemaAdd4_has {pcg : Nat → Nat → Nat} {df : DataFrame}
    (h : hasCol df "num_delinquencies" = false) :
    ∃ c ∈ schemaAdd4 pcg df, c.name = "num_delinquencies" := by
  unfold schemaAdd4
  rw [h]
  simp only [Bool.false_eq_true, if_false]
  exact ⟨_, List.mem_singleton_self _, rfl⟩

theorem schemaAdd5_has {df : DataFrame}
    (h : hasCol df "requested_amount" = false) :
    ∃ c ∈ schemaAdd5 df, c.name = "requested_amount" := by
  unfold schemaAdd5
  rw [h]
  simp only [Bool.false_eq_true, if_false]
  exact ⟨_, List.mem_singleton_self _, rfl⟩

theorem schemaAdd6_has {df : DataFrame}
    (h : hasCol df "loan_term_months" = false) :
    ∃ c ∈ schemaAdd6 df, c.name = "loan_term_months" := by
  unfold schemaAdd6
  rw [h]
  simp only [Bool.false_eq_true, if_false]
  exact ⟨_, List.mem_singleton_self _, rfl⟩

theorem hasCol_mem_names {df : DataFrame} {s : String}
    (h : hasCol df s = true) : s ∈ df.map (·.name) := by
  unfold hasCol lookupCol at h
  rcases hf : df.find? (fun c => decide (c.name = s)) with _ | col
  · rw [hf] at h
    exact absurd h (by simp)
  · have hmem := List.mem_of_find?_eq_some hf
    have hname := List.find?_some hf
    rw [decide_eq_true_eq] at hname
    exact hname ▸ List.mem_map_of_mem (·.name) hmem

theorem hasCol_false_names {df : DataFrame} {s : String}
    (h : hasCol df s = false) : ∀ c ∈ df, c.name ≠ s := by
  intro c hc
  unfold hasCol lookupCol at h
  rcases hf : df.find? (fun c => decide (c.name = s)) with _ | col
  · have := List.find?_eq_none.mp hf c hc
    simpa using this
  · rw [hf] at h
    exact absurd h (by simp)

/-- C4 (counterexample to the claim as stated): on a frame whose `DTI`
column holds a non-numeric string the float cast raises, modelled as the
normalization returning nothing. -/
theorem to_agent_schema_raises_cex :
    toAgentSchema zeroPcg schemaCexDf = none := by decide

/-- C4 (amended): on every frame whose `DTI`, `existing_debt` and `income`
cells are numeric — all other columns arbitrary, in particular string-valued
id or category columns — the normalization succeeds, yields all six
canonical fields, keeps every input column name, and adds only canonical
names. -/
theorem to_agent_schema_total_on_numeric (pcg : Nat → Nat → Nat)
    (df : DataFrame) (h : dtiOperandsNumeric df = true) :
    schemaTotalOk pcg df := by
  refine ⟨_, toAgentSchema_of_numeric pcg h, ?_, ?_, ?_⟩
  · intro s hs
    rw [names_mem_dedupe]
    simp only [List.map_append, List.mem_append]
    fin_cases hs
    · by_cases hc : hasCol df "employment_years" = true
      · exact Or.inl (Or.inl (Or.inl (Or.inl (Or.inl (Or.inl
          (hasCol_mem_names hc))))))
      · obtain ⟨c, hcm, hcn⟩ := schemaAdd1_has (Bool.not_eq_true _ ▸ hc)
        exact Or.inl (Or.inl (Or.inl (Or.inl (Or.inl (Or.inr
          (hcn ▸ List.mem_map_of_mem (·.name) hcm))))))
    · by_cases hc : hasCol df "debt_to_income" = true
      · exact Or.inl (Or.inl (Or.inl (Or.inl (Or.inl (Or.inl
          (hasCol_mem_names hc))))))
      · obtain ⟨c, hcm, hcn⟩ := schemaAdd2Num_has (Bool.not_eq_true _ ▸ hc)
        exact Or.inl (Or.inl (Or.inl (Or.inl (Or.inr
          (hcn ▸ List.mem_map_of_mem (·.name) hcm)))))
    · by_cases hc : hasCol df "credit_history_length" = true
      · exact Or.inl (Or.inl (Or.inl (Or.inl (Or.inl (Or.inl
          (hasCol_mem_names hc))))))
      · obtain ⟨c, hcm, hcn⟩ := schemaAdd3_has (Bool.not_eq_true _ ▸ hc)
        exact Or.inl (Or.inl (Or.inl (Or.inr
          (hcn ▸ List.mem_map_of_mem (·.name) hcm))))
    · by_cases hc : hasCol df "num_delinquencies" = true
      · exact Or.inl (Or.inl (Or.inl (Or.inl (Or.inl (Or.inl
          (hasCol_mem_names hc))))))
      · obtain ⟨c, hcm, hcn⟩ := schemaAdd4_has (Bool.not_eq_true _ ▸ hc)
        exact Or.inl (Or.inl (Or.inr
          (hcn ▸ List.mem_map_of_mem (·.name) hcm)))
    · by_cases hc : hasCol df "requested_amount" = true
      · exact Or.inl (Or.inl (Or.inl (Or.inl (Or.inl (Or.inl
          (hasCol_mem_names hc))))))
      · obtain ⟨c, hcm, hcn⟩ := schemaAdd5_has (Bool.not_eq_true _ ▸ hc)
        exact Or.inl (Or.inr (hcn ▸ List.mem_map_of_mem (·.name) hcm))
    · by_cases hc : hasCol df "loan_term_months" = true
      · exact Or.inl (Or.inl (Or.inl (Or.inl (Or.inl (Or.inl
          (hasCol_mem_names hc))))))
      · obtain ⟨c, hcm, hcn⟩ := schemaAdd6_has (Bool.not_eq_true _ ▸ hc)
        exact Or.inr (hcn ▸ List.mem_map_of_mem (·.name) hcm)
  · intro s hs
    rw [names_mem_dedupe]
    simp only [List.map_append, List.mem_append]
    exact Or.inl (Or.inl (Or.inl (Or.inl (Or.inl (Or.inl hs)))))
  · intro s hs
    rw [names_mem_dedupe] at hs
    simp only [List.map_append, List.mem_append] at hs
    rcases hs with ((((((h1 | h2) | h3) | h4) | h5) | h6) | h7)
    · exact Or.inl h1
    · rw [List.mem_map] at h2
      obtain ⟨c, hc, rfl⟩ := h2
      rw [schemaAdd1_names c hc]
      exact Or.inr (by simp [canonicalFields])
    · rw [List.mem_map] at h3
      obtain ⟨c, hc, rfl⟩ := h3
      rw [schemaAdd2Num_names c hc]
      exact Or.inr (by simp [canonicalFields])
    · rw [List.mem_map] at h4
      obtain ⟨c, hc, rfl⟩ := h4
      rw [schemaAdd3_names c hc]
      exact Or.inr (by simp [canonicalFields])
    · rw [List.mem_map] at h5
      obtain ⟨c, hc, rfl⟩ := h5
      rw [schemaAdd4_names c hc]
      exact Or.inr (by simp [canonicalFields])
    · rw [List.mem_map] at h6
      obtain ⟨c, hc, rfl⟩ := h6
      rw [schemaAdd5_names c hc]
      exact Or.inr (by simp [canonicalFields])
    · rw [List.mem_map] at h7
      obtain ⟨c, hc, rfl⟩ := h7
      rw [schemaAdd6_names c hc]
      exact Or.inr (by simp [canonicalFields])

/-- C4 (witness): the totality properties at a concrete frame carrying a
string id column next to the numeric operand columns. -/
theorem to_agent_schema_total_witness :
    schemaTotalOk zeroPcg schemaSampleDf :=
  to_agent_schema_total_on_numeric zeroPcg schemaSampleDf (by decide)

theorem lookupCol_dedupe (l : DataFrame) (s : String) :
    lookupCol (dedupeColumns l) s = lookupLast l s := by
  induction l with
  | nil => rfl
  | cons c rest ih =>
      unfold lookupLast
      rw [List.reverse_cons, List.find?_append]
      rw [dedupeColumns]
      split
      · rename_i hany
        rw [ih]
        unfold lookupLast
        by_cases hcs : c.name = s
        · obtain ⟨d, hd, hdn⟩ := List.any_eq_true.mp hany
          rw [decide_eq_true_eq] at hdn
          have hsome : (rest.reverse.find? (fun x => decide (x.name = s))).isSome := by
            rw [List.find?_isSome]
            exact ⟨d, List.mem_reverse.mpr hd, by simp [hdn, hcs]⟩
          rw [Option.or_of_isSome hsome]
        · have hnone : List.find? (fun x => decide (x.name = s)) [c] = none := by
            simp [hcs]
          rw [hnone, Option.or_none]
      · rename_i hany
        by_cases hcs : c.name = s
        · have hnone : List.find? (fun x => decide (x.name = s)) rest.reverse = none := by
            rw [List.find?_eq_none]
            intro d hd
            rw [List.mem_reverse] at hd
            simp only [decide_eq_true_eq]
            intro hds
            exact hany (List.any_eq_true.mpr
              ⟨d, hd, by rw [decide_eq_true_eq, hds, hcs]⟩)
          rw [hnone, Option.none_or]
          unfold lookupCol
          rw [List.find?_cons_of_pos _ (by simp [hcs])]
          simp [hcs]
        · unfold lookupCol
          rw [List.find?_cons_of_neg _ (by simp [hcs])]
          have hnone : List.find? (fun x => decide (x.name = s)) [c] = none := by
            simp [hcs]
          rw [hnone, Option.or_none]
          exact ih

theorem find?_name_none {l : DataFrame} {s : String}
    (h : ∀ c ∈ l, c.name ≠ s) :
    l.find? (fun c => decide (c.name = s)) = none := by
  rw [List.find?_eq_none]
  intro c hc
  simp [h c hc]

theorem getVals_schema_out {pcg : Nat → Nat → Nat} {df : DataFrame}
    {vs : List Val}
    (hno : hasCol df "debt_to_income" = false)
    (hshape : schemaAdd2Num df = [⟨"debt_to_income", false, vs⟩]) :
    getVals (dedupeColumns (df ++ schemaAdd1 df ++ schemaAdd2Num df ++
      schemaAdd3 pcg df ++ schemaAdd4 pcg df ++ schemaAdd5 df ++
      schemaAdd6 df)) "debt_to_income" = vs := by
  unfold getVals
  rw [lookupCol_dedupe]
  unfold lookupLast
  simp only [List.reverse_append, List.find?_append]
  have h1 : (schemaAdd1 df).reverse.find?
      (fun c => decide (c.name = "debt_to_income")) = none :=
    find?_name_none (fun c hc => by
      rw [schemaAdd1_names c (List.mem_reverse.mp hc)]
      decide)
  have h3 : (schemaAdd3 pcg df).reverse.find?
      (fun c => decide (c.name = "debt_to_income")) = none :=
    find?_name_none (fun c hc => by
      rw [schemaAdd3_names c (List.mem_reverse.mp hc)]
      decide)
  have h4 : (schemaAdd4 pcg df).reverse.find?
      (fun c => decide (c.name = "debt_to_income")) = none :=
    find?_name_none (fun c hc => by
      rw [schemaAdd4_names c (List.mem_reverse.mp hc)]
      decide)
  have h5 : (schemaAdd5 df).reverse.find?
      (fun c => decide (c.name = "debt_to_income")) = none :=
    find?_name_none (fun c hc => by
      rw [schemaAdd5_names c (List.mem_reverse.mp hc)]
      decide)
  have h6 : (schemaAdd6 df).reverse.find?
      (fun c => decide (c.name = "debt_to_income")) = none :=
    find?_name_none (fun c hc => by
      rw [schemaAdd6_names c (List.mem_reverse.mp hc)]
      decide)
  have h2 : (schemaAdd2Num df).reverse.find?
      (fun c => decide (c.name = "debt_to_income")) =
      some ⟨"debt_to_income", false, vs⟩ := by
    rw [hshape]
    rfl
  have hdf : df.reverse.find?
      (fun c => decide (c.name = "debt_to_income")) = none :=
    find?_name_none (fun c hc =>
      hasCol_false_names hno c (List.mem_reverse.mp hc))
  rw [h1, h2, h3, h4, h5, h6, hdf]
  rfl

theorem dtiRowVal_eq (a b : ℚ) : dtiRowVal a b = max 0 (min 10 (a / b)) := by
  unfold dtiRowVal
  by_cases hb : b = 0
  · rw [if_pos hb, hb, div_zero]
  · rw [if_neg hb]

/-- C6: on a frame without a debt-to-income column, whose `DTI`,
`existing_debt` and `income` cells are numeric (all other columns
arbitrary), the normalizer synthesizes the field as the float copy of `DTI`
when present, else as the existing-debt-over-income quotient clipped to
0..10 (with zero incomes sent to 0 through the NaN fill, which the rational
convention x/0 = 0 makes the same value), else as the constant 0.0
column. -/
theorem debt_to_income_synthesis (pcg : Nat → Nat → Nat) (df : DataFrame)
    (hnum : dtiOperandsNumeric df = true)
    (hno : hasCol df "debt_to_income" = false) : dtiSynthOk pcg df := by
  refine ⟨_, toAgentSchema_of_numeric pcg hnum, ?_, ?_, ?_⟩
  · intro hDTI
    have hshape : schemaAdd2Num df = [⟨"debt_to_income", false,
        (getVals df "DTI").map (fun v => Val.num (numOf v))⟩] := by
      unfold schemaAdd2Num
      rw [hno, hDTI]
      simp
    rw [getVals_schema_out hno hshape]
  · intro hDTI hed hinc
    have hshape : schemaAdd2Num df = [⟨"debt_to_income", false,
        ((getVals df "existing_debt").zip (getVals df "income")).map
          (fun p => Val.num (dtiRowVal (numOf p.1) (numOf p.2)))⟩] := by
      unfold schemaAdd2Num
      rw [hno, hDTI, hed, hinc]
      simp
    rw [getVals_schema_out hno hshape]
    simp only [dtiRowVal_eq]
  · intro hDTI hboth
    have hshape : schemaAdd2Num df = [⟨"debt_to_income", false,
        List.replicate (numRows df) (Val.num 0)⟩] := by
      unfold schemaAdd2Num
      rw [hno, hDTI, hboth]
      simp
    rw [getVals_schema_out hno hshape]

/-- C6 (witness): the quotient branch at a concrete two-row frame carrying
a string id column next to the existing-debt and income columns. -/
theorem debt_to_income_synthesis_witness :
    dtiSynthOk zeroPcg schemaSampleDf :=
  debt_to_income_synthesis zeroPcg schemaSampleDf (by decide) (by decide)

/-- C7: scrubbing a string value is exactly the email substitution, then the
phone substitution, then a trim; each substitution pass removes from the
string precisely some nonempty substrings matching its declarative pattern;
and non-string values are unchanged. -/
theorem scrub_text_pii_spec (s : Str) (q : ℚ) (b : Bool) :
    scrubTextPii (Val.str s) = Val.str (pyStrip (phoneSub (emailSub s))) ∧
    SubScrub EmailPat s (emailSub s) ∧
    SubScrub PhonePat (emailSub s) (phoneSub (emailSub s)) ∧
    scrubTextPii (Val.num q) = Val.num q ∧
    scrubTextPii (Val.bool b) = Val.bool b :=
  ⟨rfl,
   scanSub_decomp emailMatch
     (fun _ _ _ hc => emailMatch_sound hc) s.length s (Nat.le_refl _),
   scanSub_decomp phoneMatch
     (fun _ _ _ hc => phoneMatch_sound hc) (emailSub s).length (emailSub s)
     (Nat.le_refl _),
   rfl, rfl⟩

end CreditLib
